import Mathlib

/-!
# http-server: request parser, router and response formatter

A shallow embedding of `src/server.cpp`.

* A `char*` is the list of the bytes of the buffer from the pointer to the
  end of the buffer; `msg + k` is `msg.drop k` and `msg[k]` is `msg[k]?`.
  A read at or past the end of the buffer is undefined behaviour in C++ and
  is the outcome `Result.fault` here.
* `std::string` and `std::string_view` are lists of bytes.
* `uint32_t o` is a natural number: it never exceeds the length of the
  buffer on a run without fault (the buffer of `main` has `MSG_SIZE` bytes).
* `std::unordered_map` is an association list with unique keys.
* The file system is a `FileStore`; stateful functions pass it explicitly.
* `f.write(req.body.c_str(), num)` with a `num` above the size of the array of
  the body copies the bytes that lie behind the array; the source does not say
  what they are, so they are a field of the `FileStore`, and `create_file`
  returns true as the source does.
-/

namespace HttpServer

/-- A byte string: `std::string`, `std::string_view`, or the memory a `char*` points to. -/
abbrev Bytes := List Nat

/-- The bytes of a string literal. -/
def bytes (s : String) : Bytes := s.toList.map Char.toNat

/-- Outcome of running code that reads raw memory. -/
inductive Result (α : Type) where
  /-- the code returned a value -/
  | ok : α → Result α
  /-- the code read outside the buffer (undefined behaviour) -/
  | fault : Result α
  /-- the loop did not finish within the iteration budget of the model -/
  | timeout : Result α
  deriving DecidableEq, Repr

/-- `#define MSG_SIZE 1024` -/
def MSG_SIZE : Nat := 1024

/-- `#define CR "\r\n"` -/
def CR : Bytes := [13, 10]

/-- `#define CONTENT_TYPE(x) ("Content-Type: " x CR)` -/
def CONTENT_TYPE (x : Bytes) : Bytes := bytes "Content-Type: " ++ x ++ CR

/-- `#define CONTENT_LENGTH(x) ("Content-Length: " + x + CR)` -/
def CONTENT_LENGTH (x : Bytes) : Bytes := bytes "Content-Length: " ++ x ++ CR

/-- `#define END_HEADER CR` -/
def END_HEADER : Bytes := CR

/-- `#define OK "HTTP/1.1 200 OK" CR` -/
def OK : Bytes := bytes "HTTP/1.1 200 OK" ++ CR

/-- `#define CREATED "HTTP/1.1 201 Created" CR` -/
def CREATED : Bytes := bytes "HTTP/1.1 201 Created" ++ CR

/-- `#define ERR_404 "HTTP/1.1 404 Not Found" CR CR` -/
def ERR_404 : Bytes := bytes "HTTP/1.1 404 Not Found" ++ CR ++ CR

/-- `enum class RequestType` -/
inductive RequestType where
  | UNKNOWN
  | GET
  | POST
  deriving DecidableEq, Repr

/-- `std::unordered_map<std::string, std::string>`: an association list with unique keys. -/
abbrev Headers := List (Bytes × Bytes)

/-- `headers.find(key)`: the value stored under `key`, if any. -/
def Headers.find (headers : Headers) (key : Bytes) : Option Bytes :=
  List.lookup key headers

/-- `headers[key] = value`: insert, overwriting an entry with the same key. -/
def Headers.set (headers : Headers) (key value : Bytes) : Headers :=
  (key, value) :: headers.filter (fun e => decide (e.1 ≠ key))

/-- `struct Request` (the fields of `main` are flattened). -/
structure Request where
  type : RequestType := RequestType.UNKNOWN
  path : Bytes := []
  ver : Bytes := []
  headers : Headers := []
  body : Bytes := []
  deriving DecidableEq, Repr

/-- The method name of a request type: the `switch` of `operator<<` (lines 48-57). -/
def method_name : RequestType → Bytes
  | RequestType.GET => bytes "GET"
  | RequestType.UNKNOWN => []
  | RequestType.POST => bytes "POST"

/-- `std::tolower` on one byte, in the "C" locale. -/
def tolower (c : Nat) : Nat := if 65 ≤ c ∧ c ≤ 90 then c + 32 else c

/-- `strlen(msg)`: the number of bytes before the first NUL; `none` when the
buffer holds no NUL from `msg` on (the scan leaves the buffer). -/
def strlen : Bytes → Option Nat
  | [] => none
  | c :: rest => if c = 0 then some 0 else (strlen rest).map (· + 1)

/-- Conversion of a `char*` to `std::string`: the bytes before the first NUL;
`none` when the buffer holds no NUL from `msg` on. -/
def cstr (msg : Bytes) : Option Bytes :=
  (strlen msg).map (fun n => msg.take n)

/-- One pass through the body of a `while` loop: go round again in a new
state, leave the loop with a result, or read outside the buffer. -/
inductive Step (σ ρ : Type) where
  | next : σ → Step σ ρ
  | done : ρ → Step σ ρ
  | fault : Step σ ρ

/-- A `while` loop with body `step`, cut off after `fuel` iterations. -/
def run_loop {σ ρ : Type} (step : σ → Step σ ρ) : Nat → σ → Result ρ
  | 0, _ => Result.timeout
  | fuel + 1, s =>
    match step s with
    | Step.next s1 => run_loop step fuel s1
    | Step.done r => Result.ok r
    | Step.fault => Result.fault

/-- The variables of the request-line loop of `read_request`. -/
structure LineState where
  msg : Bytes
  o : Nat
  request_line : List Bytes

/-- The body of the request-line loop of `read_request` (lines 163-179), with
its loop condition. The loop is left with the vector and the pointer. -/
def request_line_step (s : LineState) : Step LineState (List Bytes × Bytes) :=
  match s.msg[0]? with
  | none => Step.fault
  | some c0 =>
    if c0 = 0 then Step.done (s.request_line, s.msg)
    else
      match s.msg[s.o]? with
      | none => Step.fault
      | some c =>
        if c = 32 then
          if 0 < s.o then
            Step.next ⟨s.msg.drop (s.o + 1), 0, s.request_line ++ [s.msg.take s.o]⟩
          else
            Step.next ⟨s.msg.drop 1, s.o + 1, s.request_line⟩
        else if c = 13 then
          match s.msg[s.o + 1]? with
          | none => Step.fault
          | some c1 =>
            if c1 = 10 then
              Step.done (s.request_line ++ [s.msg.take s.o], s.msg.drop (s.o + 2))
            else Step.next ⟨s.msg, s.o + 1, s.request_line⟩
        else Step.next ⟨s.msg, s.o + 1, s.request_line⟩

/-- The condition `strlen(msg) - o + 3 > 0` of line 208, in `size_t` arithmetic. -/
def strlen_guard (n o : Nat) : Bool :=
  (n % 2 ^ 64 + (2 ^ 64 - o % 2 ^ 64) + 3) % 2 ^ 64 != 0

/-- The variables of the header loop of `read_request`. -/
structure HeaderState where
  msg : Bytes
  o : Nat
  key : Bytes
  headers : Headers

/-- The body of the header loop of `read_request` (lines 196-220), with its loop
condition. The loop is left with the header map and the pointer. -/
def header_step (s : HeaderState) : Step HeaderState (Headers × Bytes) :=
  match s.msg[0]? with
  | none => Step.fault
  | some c0 =>
    if c0 = 0 then Step.done (s.headers, s.msg)
    else
      match s.msg[s.o]? with
      | none => Step.fault
      | some c =>
        if s.key = [] ∧ c = 58 then
          Step.next ⟨s.msg.drop (s.o + 1), 0, (s.msg.take s.o).map tolower, s.headers⟩
        else if c = 13 then
          match s.msg[s.o + 1]? with
          | none => Step.fault
          | some c1 =>
            if c1 = 10 then
              let headers1 :=
                if s.key ≠ [] then s.headers.set s.key (s.msg.take s.o) else s.headers
              match strlen s.msg with
              | none => Step.fault
              | some n =>
                if strlen_guard n s.o then
                  match s.msg[s.o + 2]? with
                  | none => Step.fault
                  | some c2 =>
                    if c2 = 13 then
                      match s.msg[s.o + 3]? with
                      | none => Step.fault
                      | some c3 =>
                        if c3 = 10 then Step.done (headers1, s.msg.drop (s.o + 4))
                        else Step.next ⟨s.msg.drop (s.o + 2), 0, [], headers1⟩
                    else Step.next ⟨s.msg.drop (s.o + 2), 0, [], headers1⟩
                else Step.next ⟨s.msg.drop (s.o + 2), 0, [], headers1⟩
            else Step.next ⟨s.msg, s.o + 1, s.key, s.headers⟩
        else if s.o = 0 ∧ c = 32 then
          Step.next ⟨s.msg.drop 1, s.o + 1, s.key, s.headers⟩
        else Step.next ⟨s.msg, s.o + 1, s.key, s.headers⟩

/-- The request-line loop of `read_request`, run from state `s`. Every pass
moves `msg + o` forward and a read past the end of the buffer stops the run, so
the number of bytes from `msg + o` to the end of the buffer, plus one, bounds
the number of passes. -/
def request_line_loop (s : LineState) : Result (List Bytes × Bytes) :=
  run_loop request_line_step (s.msg.length - s.o + 1) s

/-- The header loop of `read_request`, run from state `s`, with the same bound
on the number of passes as `request_line_loop`. -/
def header_loop (s : HeaderState) : Result (Headers × Bytes) :=
  run_loop header_step (s.msg.length - s.o + 1) s

/-- The method test of `read_request` (lines 182-188): the request type for the
first token of the request line, `none` where the source returns `std::nullopt`. -/
def request_type (method : Bytes) : Option RequestType :=
  if method = bytes "GET" then some RequestType.GET
  else if method = bytes "POST" then some RequestType.POST
  else none

/-- `std::optional<Request> read_request(char* msg)`. -/
def read_request (msg : Bytes) : Result (Option Request) :=
  match request_line_loop ⟨msg, 0, []⟩ with
  | Result.fault => Result.fault
  | Result.timeout => Result.timeout
  | Result.ok (request_line, msg1) =>
    match request_line with
    | [method, path, ver] =>
      match request_type method with
      | none => Result.ok none
      | some t =>
        match header_loop ⟨msg1, 0, [], []⟩ with
        | Result.fault => Result.fault
        | Result.timeout => Result.timeout
        | Result.ok (headers, msg2) =>
          match cstr msg2 with
          | none => Result.fault
          | some body =>
            Result.ok (some { type := t, path := path, ver := ver, headers := headers, body := body })
    | _ => Result.ok none

/-- The file system as the server sees it: `content p` is what a read of the
file at path `p` returns when it can be opened (`none` when it cannot), and
`canOpen p` says whether opening `p` for writing succeeds. With it comes what
the source leaves open about the memory of the process: `behind i` is the byte
that lies `i` places behind the array of the body of the request, which
`f.write` copies when it is asked for more bytes than the array holds. -/
structure FileStore where
  content : Bytes → Option Bytes
  canOpen : Bytes → Bool
  behind : Nat → Nat

/-- The file store after the file at `p` has been given the content `c`. -/
def FileStore.put (fs : FileStore) (p c : Bytes) : FileStore :=
  { fs with content := fun q => if q = p then some c else fs.content q }

/-- `isspace` in the "C" locale. -/
def isspace (c : Nat) : Bool := c = 32 || (9 ≤ c && c ≤ 13)

/-- `isdigit`. -/
def isdigit (c : Nat) : Bool := 48 ≤ c && c ≤ 57

/-- `std::stol(str)`, base 10: leading white space is skipped, then an optional
sign and the longest run of digits are read; `none` stands for the exceptions
`std::invalid_argument` (no digit) and `std::out_of_range` (not a `long`). -/
def stol (str : Bytes) : Option Int :=
  let s1 := str.dropWhile isspace
  let neg : Bool := s1.head? = some 45
  let s2 := if s1.head? = some 45 ∨ s1.head? = some 43 then s1.drop 1 else s1
  let digits := s2.takeWhile isdigit
  if digits = [] then none
  else
    let v : Int := digits.foldl (fun a d => 10 * a + ((d : Int) - 48)) 0
    let n : Int := if neg then -v else v
    if n < -(2 ^ 63) ∨ 2 ^ 63 - 1 < n then none else some n

/-- The bytes that `f.write(req.body.c_str(), num)` puts into the file (line
258). The count of `write` is a `std::streamsize`: a `num` of 2^63 or more is a
negative count, and nothing is written. Otherwise `num` bytes are copied from
the array of the body, which holds the body and a NUL, and from the memory
behind it when `num` is larger than the array. -/
def written (fs : FileStore) (body : Bytes) (num : Nat) : Bytes :=
  if 2 ^ 63 ≤ num then []
  else (body ++ 0 :: (List.range (num - (body.length + 1))).map fs.behind).take num

/-- `bool create_file(const std::string& file, const Request& req)`, with the
global `directory` and the file system as explicit arguments. Once `std::stol`
has returned, the source calls `f.write` and returns true. -/
def create_file (fs : FileStore) (directory : Option Bytes) (file : Bytes) (req : Request) :
    Result (Bool × FileStore) :=
  match directory with
  | none => Result.ok (false, fs)
  | some dir =>
    if fs.canOpen (dir ++ file) = false then Result.ok (false, fs)
    else
      let fs1 := fs.put (dir ++ file) []
      match req.headers.find (bytes "content-length") with
      | none => Result.ok (false, fs1)
      | some value =>
        match stol value with
        | none => Result.ok (false, fs1)
        | some n =>
          let num : Nat := (n % 2 ^ 64).toNat
          Result.ok (true, fs1.put (dir ++ file) (written fs req.body num))

/-- `std::optional<std::string> find_file(const std::string& file)`, with the
global `directory` and the file system as explicit arguments. `end` is a
`uint32_t`. -/
def find_file (fs : FileStore) (directory : Option Bytes) (file : Bytes) : Option Bytes :=
  match directory with
  | none => none
  | some dir =>
    match fs.content (dir ++ file) with
    | none => none
    | some data => some (data.take (data.length % 2 ^ 32))

/-- `std::to_string` on a `size_t`: the decimal digits. -/
def to_string (n : Nat) : Bytes := bytes (Nat.repr n)

/-- `s.find_last_of(c)`: the index of the last occurrence of `c`, `none` for `npos`. -/
def find_last_of : Bytes → Nat → Option Nat
  | [], _ => none
  | x :: xs, c =>
    match find_last_of xs c with
    | some i => some (i + 1)
    | none => if x = c then some 0 else none

/-- `std::string generate_response(const Request& request, std::optional<std::string>& payload)`.
The file system is an explicit argument and is returned with the response;
`payload` is not used by the source, the global `directory` is, and it is the
argument `directory` here. -/
def generate_response (fs : FileStore) (directory : Option Bytes) (request : Request) :
    Result (Bytes × FileStore) :=
  if request.path = [] ∨ request.path[0]? ≠ some 47 then Result.ok (ERR_404, fs)
  else if request.path.length = 1 then Result.ok (OK ++ END_HEADER, fs)
  else
    match find_last_of request.path 47 with
    | none => Result.fault
    | some pos =>
      let path := request.path
      let path_with_arg := request.path.take pos
      let arg := (request.path.drop (pos + 1)).takeWhile (fun c => decide (c ≠ 0))
      match request.type with
      | RequestType.GET =>
        if path_with_arg = bytes "/echo" then
          Result.ok (OK ++ CONTENT_TYPE (bytes "text/plain")
            ++ CONTENT_LENGTH (to_string arg.length) ++ END_HEADER ++ arg, fs)
        else if path = bytes "/user-agent" then
          match request.headers.find (bytes "user-agent") with
          | none => Result.ok (ERR_404, fs)
          | some value =>
            Result.ok (OK ++ CONTENT_TYPE (bytes "text/plain")
              ++ CONTENT_LENGTH (to_string value.length) ++ END_HEADER ++ value, fs)
        else if path_with_arg = bytes "/files" then
          match find_file fs directory arg with
          | some file =>
            Result.ok (OK ++ CONTENT_TYPE (bytes "application/octet-stream")
              ++ CONTENT_LENGTH (to_string file.length) ++ END_HEADER ++ file, fs)
          | none => Result.ok (ERR_404, fs)
        else Result.ok (ERR_404, fs)
      | RequestType.POST =>
        if path_with_arg = bytes "/files" then
          match create_file fs directory arg request with
          | Result.ok (true, fs1) => Result.ok (CREATED ++ END_HEADER, fs1)
          | Result.ok (false, fs1) => Result.ok (ERR_404, fs1)
          | Result.fault => Result.fault
          | Result.timeout => Result.timeout
        else Result.ok (ERR_404, fs)
      | RequestType.UNKNOWN => Result.ok (ERR_404, fs)

/-- The connection handler of `main` (lines 136-145): the bytes written to the
client, `none` when nothing is written. -/
def handle (fs : FileStore) (directory : Option Bytes) (msg : Bytes) :
    Result (Option Bytes × FileStore) :=
  match read_request msg with
  | Result.fault => Result.fault
  | Result.timeout => Result.timeout
  | Result.ok none => Result.ok (none, fs)
  | Result.ok (some req) =>
    match generate_response fs directory req with
    | Result.fault => Result.fault
    | Result.timeout => Result.timeout
    | Result.ok (response, fs1) => Result.ok (some response, fs1)

/-! ## Vocabulary of the specification -/

/-- Text with one leading space removed, if there is one. -/
def strip_space : Bytes → Bytes
  | 32 :: rest => rest
  | s => s

/-- A token of the request line as the spec describes it: non-empty, without
space, CR, LF or NUL. -/
def is_token (t : Bytes) : Prop := t ≠ [] ∧ ∀ c ∈ t, c ≠ 32 ∧ c ≠ 13 ∧ c ≠ 10 ∧ c ≠ 0

instance (t : Bytes) : Decidable (is_token t) := by
  unfold is_token; infer_instance

/-- A file store without any file, where no path can be opened. -/
def empty_store : FileStore := ⟨fun _ => none, fun _ => false, fun _ => 0⟩

/-- The wire format of a response as the spec describes it: one of the three
status lines; then no header line, or a Content-Type line followed by a
Content-Length line that gives the decimal length of the body; then the empty
line; then the body, which is empty when there is no header line. -/
def wire_format (response : Bytes) : Prop :=
  ∃ status, status ∈ [bytes "HTTP/1.1 200 OK\r\n", bytes "HTTP/1.1 201 Created\r\n",
      bytes "HTTP/1.1 404 Not Found\r\n"] ∧
    (response = status ++ bytes "\r\n" ∨
      ∃ ctype body, ctype ∈ [bytes "text/plain", bytes "application/octet-stream"] ∧
        response = status ++ bytes "Content-Type: " ++ ctype ++ bytes "\r\n"
          ++ bytes "Content-Length: " ++ to_string body.length ++ bytes "\r\n"
          ++ bytes "\r\n" ++ body)

/-- A file store without any file, where every path can be opened for writing. -/
def open_store : FileStore := ⟨fun _ => none, fun _ => true, fun _ => 0⟩

/-- A header name in its lowercased form: no ASCII uppercase letter 'A'..'Z'. -/
def lowercased (key : Bytes) : Prop := ∀ c ∈ key, ¬ (65 ≤ c ∧ c ≤ 90)

instance (key : Bytes) : Decidable (lowercased key) := by
  unfold lowercased; infer_instance

/-- A header line as it stands in the buffer: the name `e.1`, a colon, the value
region `e.2`, CRLF. -/
def header_line (e : Bytes × Bytes) : Bytes := e.1 ++ bytes ":" ++ e.2 ++ bytes "\r\n"

/-- A header section: its lines one after the other, without the empty line. -/
def header_section : List (Bytes × Bytes) → Bytes
  | [] => []
  | e :: rest => header_line e ++ header_section rest

/-- A header line the parser reads as one name and one value: the name holds no
':', name and value region hold no CR and no NUL, the name less one leading
space is not empty, and the value region is not a single space. -/
def well_formed_line (e : Bytes × Bytes) : Prop :=
  (∀ c ∈ e.1, c ≠ 58 ∧ c ≠ 13 ∧ c ≠ 0) ∧ strip_space e.1 ≠ []
    ∧ (∀ c ∈ e.2, c ≠ 13 ∧ c ≠ 0) ∧ e.2 ≠ [32]

instance (e : Bytes × Bytes) : Decidable (well_formed_line e) := by
  unfold well_formed_line; infer_instance

/-- The key under which a header line is stored: its name, less one leading
space, lowercased. -/
def header_key (e : Bytes × Bytes) : Bytes := (strip_space e.1).map tolower

/-- The value stored for a header line: its value region less one leading space. -/
def header_value (e : Bytes × Bytes) : Bytes := strip_space e.2

/-- The header map of a header section: the lines are stored in order, a later
line replaces an earlier one with the same key. -/
def parsed_headers (lines : List (Bytes × Bytes)) : Headers :=
  lines.foldl (fun hs e => hs.set (header_key e) (header_value e)) []

/-- A file of 2^32 bytes. -/
def big_file : Bytes := List.replicate (2 ^ 32) 65

/-- Requests served one after the other by `generate_response`, each on the file
store the one before it left: the responses in order, and the last file store. -/
def serve_all (directory : Option Bytes) :
    FileStore → List Request → Result (List Bytes × FileStore)
  | fs, [] => Result.ok ([], fs)
  | fs, request :: rest =>
    match generate_response fs directory request with
    | Result.ok (response, fs1) =>
      match serve_all directory fs1 rest with
      | Result.ok (responses, fs2) => Result.ok (response :: responses, fs2)
      | Result.fault => Result.fault
      | Result.timeout => Result.timeout
    | Result.fault => Result.fault
    | Result.timeout => Result.timeout

/-! ## Loops: fuel and unfolding -/

theorem lt_of_getElem?_some {msg : Bytes} {o c : Nat} (h : msg[o]? = some c) : o < msg.length := by
  by_contra hlt
  rw [List.getElem?_eq_none (by omega)] at h
  cases h

/-- A loop whose body lowers a measure needs no more fuel than the measure plus one. -/
theorem run_loop_fuel {σ ρ : Type} (step : σ → Step σ ρ) (μ : σ → Nat)
    (hstep : ∀ s s1, step s = Step.next s1 → μ s1 < μ s) (f1 : Nat) :
    ∀ (f2 : Nat) (s : σ), μ s < f1 → μ s < f2 → run_loop step f1 s = run_loop step f2 s := by
  induction f1 with
  | zero => intro f2 s h1; omega
  | succ f1 ih =>
    intro f2 s h1 h2
    cases f2 with
    | zero => omega
    | succ f2 =>
      simp only [run_loop]
      cases hs : step s with
      | next s1 =>
        have := hstep s s1 hs
        exact ih f2 s1 (by omega) (by omega)
      | done r => rfl
      | fault => rfl

theorem run_loop_ne_timeout {σ ρ : Type} (step : σ → Step σ ρ) (μ : σ → Nat)
    (hstep : ∀ s s1, step s = Step.next s1 → μ s1 < μ s) (f : Nat) :
    ∀ s : σ, μ s < f → run_loop step f s ≠ Result.timeout := by
  induction f with
  | zero => intro s h; omega
  | succ f ih =>
    intro s h
    simp only [run_loop]
    cases hs : step s with
    | next s1 =>
      have := hstep s s1 hs
      exact ih s1 (by omega)
    | done r => simp
    | fault => simp

theorem request_line_step_lt (s s1 : LineState) (h : request_line_step s = Step.next s1) :
    s1.msg.length - s1.o < s.msg.length - s.o := by
  unfold request_line_step at h
  split at h
  · cases h
  · split at h
    · cases h
    · split at h
      · cases h
      · rename_i c hc
        have ho := lt_of_getElem?_some hc
        repeat' split at h
        all_goals (cases h; try (dsimp only; (try simp only [List.length_drop]); omega))

theorem header_step_lt (s s1 : HeaderState) (h : header_step s = Step.next s1) :
    s1.msg.length - s1.o < s.msg.length - s.o := by
  unfold header_step at h
  split at h
  · cases h
  · split at h
    · cases h
    · split at h
      · cases h
      · rename_i c hc
        have ho := lt_of_getElem?_some hc
        repeat' split at h
        all_goals (cases h; try (dsimp only; (try simp only [List.length_drop]); omega))

theorem request_line_loop_eq (s : LineState) :
    request_line_loop s =
      match request_line_step s with
      | Step.next s1 => request_line_loop s1
      | Step.done r => Result.ok r
      | Step.fault => Result.fault := by
  unfold request_line_loop
  simp only [run_loop]
  cases hs : request_line_step s with
  | next s1 =>
    have := request_line_step_lt s s1 hs
    exact run_loop_fuel request_line_step (fun s => s.msg.length - s.o) request_line_step_lt
      (s.msg.length - s.o) (s1.msg.length - s1.o + 1) s1 (by dsimp only; omega) (by dsimp only; omega)
  | done r => rfl
  | fault => rfl

theorem header_loop_eq (s : HeaderState) :
    header_loop s =
      match header_step s with
      | Step.next s1 => header_loop s1
      | Step.done r => Result.ok r
      | Step.fault => Result.fault := by
  unfold header_loop
  simp only [run_loop]
  cases hs : header_step s with
  | next s1 =>
    have := header_step_lt s s1 hs
    exact run_loop_fuel header_step (fun s => s.msg.length - s.o) header_step_lt
      (s.msg.length - s.o) (s1.msg.length - s1.o + 1) s1 (by dsimp only; omega) (by dsimp only; omega)
  | done r => rfl
  | fault => rfl

theorem request_line_loop_next {s s1 : LineState} (h : request_line_step s = Step.next s1) :
    request_line_loop s = request_line_loop s1 := by
  rw [request_line_loop_eq, h]

theorem request_line_loop_done {s : LineState} {r : List Bytes × Bytes}
    (h : request_line_step s = Step.done r) : request_line_loop s = Result.ok r := by
  rw [request_line_loop_eq, h]

theorem header_loop_next {s s1 : HeaderState} (h : header_step s = Step.next s1) :
    header_loop s = header_loop s1 := by
  rw [header_loop_eq, h]

theorem header_loop_done {s : HeaderState} {r : Headers × Bytes}
    (h : header_step s = Step.done r) : header_loop s = Result.ok r := by
  rw [header_loop_eq, h]

theorem request_line_loop_ne_timeout (s : LineState) : request_line_loop s ≠ Result.timeout :=
  run_loop_ne_timeout request_line_step (fun s => s.msg.length - s.o) request_line_step_lt
    (s.msg.length - s.o + 1) s (by dsimp only; omega)

theorem header_loop_ne_timeout (s : HeaderState) : header_loop s ≠ Result.timeout :=
  run_loop_ne_timeout header_step (fun s => s.msg.length - s.o) header_step_lt
    (s.msg.length - s.o + 1) s (by dsimp only; omega)

/-- The iteration budget of the model is never used up: `read_request` returns
or reads outside the buffer. -/
theorem read_request_ne_timeout (msg : Bytes) : read_request msg ≠ Result.timeout := by
  unfold read_request
  split
  · simp
  · rename_i h
    exact absurd h (request_line_loop_ne_timeout _)
  · split
    · split
      · simp
      · split
        · simp
        · rename_i h
          exact absurd h (header_loop_ne_timeout _)
        · split <;> simp
    · simp

/-! ## The request-line loop -/

theorem request_line_step_char {msg : Bytes} {o c0 c : Nat} (acc : List Bytes)
    (h0 : msg[0]? = some c0) (hc0 : c0 ≠ 0) (hc : msg[o]? = some c)
    (h32 : c ≠ 32) (h13 : c ≠ 13) :
    request_line_step ⟨msg, o, acc⟩ = Step.next ⟨msg, o + 1, acc⟩ := by
  simp [request_line_step, h0, hc0, hc, h32, h13]

theorem request_line_step_space {msg : Bytes} {o c0 : Nat} (acc : List Bytes)
    (h0 : msg[0]? = some c0) (hc0 : c0 ≠ 0) (hc : msg[o]? = some 32) (ho : 0 < o) :
    request_line_step ⟨msg, o, acc⟩ = Step.next ⟨msg.drop (o + 1), 0, acc ++ [msg.take o]⟩ := by
  simp [request_line_step, h0, hc0, hc, ho]

theorem request_line_step_crlf {msg : Bytes} {o c0 : Nat} (acc : List Bytes)
    (h0 : msg[0]? = some c0) (hc0 : c0 ≠ 0) (hc : msg[o]? = some 13)
    (hc1 : msg[o + 1]? = some 10) :
    request_line_step ⟨msg, o, acc⟩ = Step.done (acc ++ [msg.take o], msg.drop (o + 2)) := by
  simp [request_line_step, h0, hc0, hc, hc1]

/-- Scanning a token that is followed by a space. -/
theorem request_line_token_space (c0 : Nat) (t rest : Bytes) (acc : List Bytes)
    (ht0 : t[0]? = some c0) (hc0 : c0 ≠ 0) (ht : ∀ c ∈ t, c ≠ 32 ∧ c ≠ 13) :
    ∀ (n o : Nat), o + n = t.length →
      request_line_loop ⟨t ++ 32 :: rest, o, acc⟩ = request_line_loop ⟨rest, 0, acc ++ [t]⟩ := by
  have hpos : 0 < t.length := lt_of_getElem?_some ht0
  have h0 : (t ++ 32 :: rest)[0]? = some c0 := by
    rw [List.getElem?_append_left hpos, ht0]
  intro n
  induction n with
  | zero =>
    intro o ho
    have ho1 : o = t.length := by omega
    subst ho1
    have hc : (t ++ 32 :: rest)[t.length]? = some 32 := by
      rw [List.getElem?_append_right (Nat.le_refl _)]; simp
    rw [request_line_loop_next (request_line_step_space acc h0 hc0 hc hpos)]
    simp
  | succ n ih =>
    intro o ho
    have hlt : o < t.length := by omega
    have hne := ht _ (List.getElem_mem hlt)
    have hget : (t ++ 32 :: rest)[o]? = some t[o] := by
      rw [List.getElem?_append_left hlt, List.getElem?_eq_getElem hlt]
    rw [request_line_loop_next (request_line_step_char acc h0 hc0 hget hne.1 hne.2)]
    exact ih (o + 1) (by omega)

/-- Scanning the last token of the request line, which is followed by CRLF. -/
theorem request_line_token_crlf (c0 : Nat) (t rest : Bytes) (acc : List Bytes)
    (ht0 : t[0]? = some c0) (hc0 : c0 ≠ 0) (ht : ∀ c ∈ t, c ≠ 32 ∧ c ≠ 13) :
    ∀ (n o : Nat), o + n = t.length →
      request_line_loop ⟨t ++ 13 :: 10 :: rest, o, acc⟩ = Result.ok (acc ++ [t], rest) := by
  have hpos : 0 < t.length := lt_of_getElem?_some ht0
  have h0 : (t ++ 13 :: 10 :: rest)[0]? = some c0 := by
    rw [List.getElem?_append_left hpos, ht0]
  intro n
  induction n with
  | zero =>
    intro o ho
    have ho1 : o = t.length := by omega
    subst ho1
    have hc : (t ++ 13 :: 10 :: rest)[t.length]? = some 13 := by
      rw [List.getElem?_append_right (Nat.le_refl _)]; simp
    have hc1 : (t ++ 13 :: 10 :: rest)[t.length + 1]? = some 10 := by
      rw [List.getElem?_append_right (Nat.le_succ _)]; simp
    rw [request_line_loop_done (request_line_step_crlf acc h0 hc0 hc hc1)]
    simp
  | succ n ih =>
    intro o ho
    have hlt : o < t.length := by omega
    have hne := ht _ (List.getElem_mem hlt)
    have hget : (t ++ 13 :: 10 :: rest)[o]? = some t[o] := by
      rw [List.getElem?_append_left hlt, List.getElem?_eq_getElem hlt]
    rw [request_line_loop_next (request_line_step_char acc h0 hc0 hget hne.1 hne.2)]
    exact ih (o + 1) (by omega)

theorem is_token_head {t : Bytes} (h : is_token t) : ∃ c0, t[0]? = some c0 ∧ c0 ≠ 0 := by
  obtain ⟨hne, hall⟩ := h
  cases t with
  | nil => exact absurd rfl hne
  | cons a t => exact ⟨a, by simp, (hall a (List.mem_cons_self _ _)).2.2.2⟩

/-- The request-line loop on a line of three tokens separated by single spaces. -/
theorem request_line_loop_three (m p v rest : Bytes)
    (hm : is_token m) (hp : is_token p) (hv : is_token v) :
    request_line_loop ⟨m ++ 32 :: (p ++ 32 :: (v ++ 13 :: 10 :: rest)), 0, []⟩
      = Result.ok ([m, p, v], rest) := by
  obtain ⟨m0, hm0, hm0'⟩ := is_token_head hm
  obtain ⟨p0, hp0, hp0'⟩ := is_token_head hp
  obtain ⟨v0, hv0, hv0'⟩ := is_token_head hv
  rw [request_line_token_space m0 m _ [] hm0 hm0' (fun c hc => ⟨(hm.2 c hc).1, (hm.2 c hc).2.1⟩)
    m.length 0 (by omega)]
  rw [request_line_token_space p0 p _ _ hp0 hp0' (fun c hc => ⟨(hp.2 c hc).1, (hp.2 c hc).2.1⟩)
    p.length 0 (by omega)]
  rw [request_line_token_crlf v0 v _ _ hv0 hv0' (fun c hc => ⟨(hv.2 c hc).1, (hv.2 c hc).2.1⟩)
    v.length 0 (by omega)]
  rfl

theorem is_token_method (t : RequestType) (ht : t = RequestType.GET ∨ t = RequestType.POST) :
    is_token (method_name t) := by
  rcases ht with rfl | rfl <;> decide

theorem request_type_method_name (t : RequestType)
    (ht : t = RequestType.GET ∨ t = RequestType.POST) :
    request_type (method_name t) = some t := by
  rcases ht with rfl | rfl <;> decide

/-! ## The header loop -/

theorem header_step_stop {msg : Bytes} (o : Nat) (key : Bytes) (hs : Headers)
    (h0 : msg[0]? = some 0) :
    header_step ⟨msg, o, key, hs⟩ = Step.done (hs, msg) := by
  simp [header_step, h0]

theorem header_step_char {msg : Bytes} {o c0 c : Nat} (key : Bytes) (hs : Headers)
    (h0 : msg[0]? = some c0) (hc0 : c0 ≠ 0) (hc : msg[o]? = some c)
    (h58 : key = [] → c ≠ 58) (h13 : c ≠ 13) (h32 : o = 0 → c ≠ 32) :
    header_step ⟨msg, o, key, hs⟩ = Step.next ⟨msg, o + 1, key, hs⟩ := by
  have h1 : ¬ (key = [] ∧ c = 58) := fun h => h58 h.1 h.2
  have h2 : ¬ (o = 0 ∧ c = 32) := fun h => h32 h.1 h.2
  simp only [header_step, h0, hc, hc0, h1, h13, h2, if_false]

theorem header_step_space {msg : Bytes} (key : Bytes) (hs : Headers)
    (h0 : msg[0]? = some 32) :
    header_step ⟨msg, 0, key, hs⟩ = Step.next ⟨msg.drop 1, 1, key, hs⟩ := by
  simp [header_step, h0]

theorem header_step_colon {msg : Bytes} {o c0 : Nat} (hs : Headers)
    (h0 : msg[0]? = some c0) (hc0 : c0 ≠ 0) (hc : msg[o]? = some 58) :
    header_step ⟨msg, o, [], hs⟩
      = Step.next ⟨msg.drop (o + 1), 0, (msg.take o).map tolower, hs⟩ := by
  simp [header_step, h0, hc0, hc]

theorem header_step_crlf_end {msg : Bytes} {o c0 n : Nat} (key : Bytes) (hs : Headers)
    (h0 : msg[0]? = some c0) (hc0 : c0 ≠ 0) (hc : msg[o]? = some 13)
    (hc1 : msg[o + 1]? = some 10) (hn : strlen msg = some n) (hg : strlen_guard n o = true)
    (hc2 : msg[o + 2]? = some 13) (hc3 : msg[o + 3]? = some 10) :
    header_step ⟨msg, o, key, hs⟩
      = Step.done (if key ≠ [] then hs.set key (msg.take o) else hs, msg.drop (o + 4)) := by
  simp [header_step, h0, hc0, hc, hc1, hn, hg, hc2, hc3]

theorem header_step_crlf_next {msg : Bytes} {o c0 n c2 : Nat} (key : Bytes) (hs : Headers)
    (h0 : msg[0]? = some c0) (hc0 : c0 ≠ 0) (hc : msg[o]? = some 13)
    (hc1 : msg[o + 1]? = some 10) (hn : strlen msg = some n)
    (hc2 : msg[o + 2]? = some c2) (h13 : c2 ≠ 13) :
    header_step ⟨msg, o, key, hs⟩
      = Step.next ⟨msg.drop (o + 2), 0, [],
          if key ≠ [] then hs.set key (msg.take o) else hs⟩ := by
  simp only [header_step, h0, hc0, hc, hc1, hn, hc2, h13]
  simp

/-- The header loop walks over bytes that are neither a separator nor trimmed. -/
theorem header_loop_advance {msg : Bytes} {c0 : Nat} (key : Bytes) (hs : Headers)
    (h0 : msg[0]? = some c0) (hc0 : c0 ≠ 0) :
    ∀ (n o : Nat),
      (∀ i, o ≤ i → i < o + n →
        ∃ c, msg[i]? = some c ∧ c ≠ 13 ∧ (key = [] → c ≠ 58) ∧ (i = 0 → c ≠ 32)) →
      header_loop ⟨msg, o, key, hs⟩ = header_loop ⟨msg, o + n, key, hs⟩ := by
  intro n
  induction n with
  | zero => intro o _; rfl
  | succ n ih =>
    intro o h
    obtain ⟨c, hc, h13, h58, h32⟩ := h o (Nat.le_refl _) (by omega)
    rw [header_loop_next (header_step_char key hs h0 hc0 hc h58 h13 h32)]
    rw [ih (o + 1) (fun i h1 h2 => h i (by omega) (by omega))]
    congr 2
    omega

theorem strlen_append (x y : Bytes) (hx : ∀ c ∈ x, c ≠ 0) :
    strlen (x ++ y) = (strlen y).map (fun n => n + x.length) := by
  induction x with
  | nil => simp
  | cons a x ih =>
    have ha : a ≠ 0 := hx a (List.mem_cons_self _ _)
    have ih1 := ih (fun c hc => hx c (List.mem_cons_of_mem _ hc))
    rw [List.cons_append, strlen, if_neg ha, ih1]
    cases strlen y with
    | none => rfl
    | some n => simp only [Option.map_some', List.length_cons]; congr 1

/-- One field of a header line: the bytes `x` in front of `rest` are walked
over, after one leading space (if any) has been dropped. -/
theorem header_loop_field (x rest key : Bytes) (hs : Headers)
    (hx : ∀ c ∈ x, c ≠ 13 ∧ c ≠ 0 ∧ (key = [] → c ≠ 58)) (hne : x ≠ [32]) :
    header_loop ⟨x ++ rest, 0, key, hs⟩
      = header_loop ⟨strip_space x ++ rest, (strip_space x).length, key, hs⟩ := by
  match x, hx, hne with
  | [], _, _ => rfl
  | c :: x1, hx, hne =>
    by_cases hc : c = 32
    · subst hc
      cases x1 with
      | nil => exact absurd rfl hne
      | cons d x2 =>
        have hd := hx d (by simp)
        rw [header_loop_next (header_step_space key hs (by simp))]
        have h := @header_loop_advance (d :: x2 ++ rest) d key hs (by simp) hd.2.1
          x2.length 1 (by
            intro i hi1 hi2
            have hlt : i < (d :: x2).length := by simp; omega
            refine ⟨(d :: x2)[i], ?_, ?_, ?_, ?_⟩
            · rw [List.getElem?_append_left hlt, List.getElem?_eq_getElem hlt]
            · exact (hx _ (List.mem_cons_of_mem _ (List.getElem_mem hlt))).1
            · exact (hx _ (List.mem_cons_of_mem _ (List.getElem_mem hlt))).2.2
            · intro h0; omega)
        simp only [strip_space, List.length_cons]
        rw [show x2.length + 1 = 1 + x2.length by omega]
        simpa using h
    · have hcc := hx c (by simp)
      have h := @header_loop_advance (c :: x1 ++ rest) c key hs (by simp) hcc.2.1
          (c :: x1).length 0 (by
            intro i hi1 hi2
            have hlt : i < (c :: x1).length := by omega
            refine ⟨(c :: x1)[i], ?_, ?_, ?_, ?_⟩
            · rw [List.getElem?_append_left hlt, List.getElem?_eq_getElem hlt]
            · exact (hx _ (List.getElem_mem hlt)).1
            · exact (hx _ (List.getElem_mem hlt)).2.2
            · intro h0; subst h0; simpa using hc)
      have hs1 : strip_space (c :: x1) = c :: x1 := by
        unfold strip_space
        split
        · rename_i heq; injection heq with h1 _; exact absurd h1 hc
        · rfl
      rw [hs1]
      simpa using h

/-- The header loop on the empty line that follows the request line directly. -/
theorem header_loop_empty_line (junk : Bytes) :
    header_loop ⟨13 :: 10 :: 0 :: junk, 0, [], []⟩ = Result.ok ([], 0 :: junk) := by
  rw [header_loop_next (@header_step_crlf_next _ _ 13 2 0 [] []
    (by simp) (by decide) (by simp) (by simp) (by simp [strlen]) (by simp) (by decide))]
  rw [header_loop_done (header_step_stop 0 _ _ (by simp))]
  simp

/-- The header loop on one header line followed by the empty line. -/
theorem header_loop_one_line (k w junk : Bytes)
    (hk : ∀ c ∈ k, c ≠ 58 ∧ c ≠ 13 ∧ c ≠ 0) (hk1 : strip_space k ≠ [])
    (hw : ∀ c ∈ w, c ≠ 13 ∧ c ≠ 0) (hw1 : w ≠ [32]) :
    header_loop ⟨k ++ 58 :: (w ++ 13 :: 10 :: 13 :: 10 :: 0 :: junk), 0, [], []⟩
      = Result.ok ([((strip_space k).map tolower, strip_space w)], 0 :: junk) := by
  have hsub : ∀ x : Bytes, ∀ c ∈ strip_space x, c ∈ x := by
    intro x c hc
    unfold strip_space at hc
    split at hc
    · exact List.mem_cons_of_mem _ hc
    · exact hc
  have hk32 : k ≠ [32] := by
    intro h; subst h; exact hk1 rfl
  rw [header_loop_field k _ [] [] (fun c hc => ⟨(hk c hc).2.1, (hk c hc).2.2, fun _ => (hk c hc).1⟩)
    hk32]
  obtain ⟨k0, hk0, hk0'⟩ : ∃ c0, (strip_space k)[0]? = some c0 ∧ c0 ≠ 0 := by
    cases hsk : strip_space k with
    | nil => exact absurd hsk hk1
    | cons a r =>
      exact ⟨a, by simp, (hk a (hsub k a (by rw [hsk]; simp))).2.2⟩
  have hkpos : 0 < (strip_space k).length := lt_of_getElem?_some hk0
  rw [header_loop_next (@header_step_colon _ _ k0 []
    (by rw [List.getElem?_append_left hkpos, hk0]) hk0'
    (by rw [List.getElem?_append_right (Nat.le_refl _)]; simp))]
  rw [List.take_left, List.drop_append 1]
  simp only [List.drop_succ_cons, List.drop_zero]
  have hkey : (strip_space k).map tolower ≠ [] := by
    intro h; exact hk1 (List.map_eq_nil_iff.mp h)
  rw [header_loop_field w _ _ [] (fun c hc => ⟨(hw c hc).1, (hw c hc).2, fun h => absurd h hkey⟩)
    hw1]
  have hw0 : ∀ c ∈ strip_space w, c ≠ 0 := fun c hc => (hw c (hsub w c hc)).2
  obtain ⟨w0, hw0a, hw0b⟩ : ∃ c0,
      (strip_space w ++ 13 :: 10 :: 13 :: 10 :: 0 :: junk)[0]? = some c0 ∧ c0 ≠ 0 := by
    cases hsw : strip_space w with
    | nil => exact ⟨13, by simp, by decide⟩
    | cons a r => exact ⟨a, by simp, hw0 a (by rw [hsw]; simp)⟩
  have hlen : strlen (strip_space w ++ 13 :: 10 :: 13 :: 10 :: 0 :: junk)
      = some (4 + (strip_space w).length) := by
    rw [strlen_append _ _ hw0]
    simp [strlen]
  have hguard : strlen_guard (4 + (strip_space w).length) (strip_space w).length = true := by
    unfold strlen_guard
    simp only [bne_iff_ne, ne_eq]
    omega
  rw [header_loop_done (@header_step_crlf_end _ _ w0 _ _ [] hw0a hw0b
    (by rw [List.getElem?_append_right (Nat.le_refl _)]; simp)
    (by rw [List.getElem?_append_right (Nat.le_succ _)]; simp)
    hlen hguard
    (by rw [List.getElem?_append_right (by omega)]; simp)
    (by rw [List.getElem?_append_right (by omega)]; simp))]
  rw [List.take_left, List.drop_append 4, if_pos hkey]
  rfl

/-! ## `read_request` on well-formed requests -/

/-- The result of `read_request` from the results of its two loops. -/
theorem read_request_of_loops {msg m p v msg1 msg2 body : Bytes} {t : RequestType}
    {headers : Headers}
    (h1 : request_line_loop ⟨msg, 0, []⟩ = Result.ok ([m, p, v], msg1))
    (ht : request_type m = some t)
    (h2 : header_loop ⟨msg1, 0, [], []⟩ = Result.ok (headers, msg2))
    (h3 : cstr msg2 = some body) :
    read_request msg
      = Result.ok (some { type := t, path := p, ver := v, headers := headers, body := body }) := by
  unfold read_request
  rw [h1]
  dsimp only
  rw [ht]
  dsimp only
  rw [h2]
  dsimp only
  rw [h3]

theorem cstr_nul (junk : Bytes) : cstr (0 :: junk) = some [] := by
  simp [cstr, strlen]

theorem read_request_no_header (t : RequestType)
    (ht : t = RequestType.GET ∨ t = RequestType.POST) (p v junk : Bytes)
    (hp : is_token p) (hv : is_token v) :
    read_request (method_name t ++ 32 :: (p ++ 32 :: (v ++ 13 :: 10 :: 13 :: 10 :: 0 :: junk)))
      = Result.ok (some { type := t, path := p, ver := v, headers := [], body := [] }) :=
  read_request_of_loops (request_line_loop_three _ _ _ _ (is_token_method t ht) hp hv)
    (request_type_method_name t ht) (header_loop_empty_line junk) (cstr_nul junk)

theorem read_request_one_header (t : RequestType)
    (ht : t = RequestType.GET ∨ t = RequestType.POST) (p v k w junk : Bytes)
    (hp : is_token p) (hv : is_token v)
    (hk : ∀ c ∈ k, c ≠ 58 ∧ c ≠ 13 ∧ c ≠ 0) (hk1 : strip_space k ≠ [])
    (hw : ∀ c ∈ w, c ≠ 13 ∧ c ≠ 0) (hw1 : w ≠ [32]) :
    read_request (method_name t ++ 32 :: (p ++ 32 :: (v ++ 13 :: 10 ::
        (k ++ 58 :: (w ++ 13 :: 10 :: 13 :: 10 :: 0 :: junk)))))
      = Result.ok (some {
          type := t, path := p, ver := v,
          headers := [((strip_space k).map tolower, strip_space w)], body := [] }) :=
  read_request_of_loops (request_line_loop_three _ _ _ _ (is_token_method t ht) hp hv)
    (request_type_method_name t ht) (header_loop_one_line k w junk hk hk1 hw hw1) (cstr_nul junk)

theorem bytes_space : bytes " " = [32] := by decide

theorem bytes_crlf : bytes "\r\n" = [13, 10] := by decide

theorem bytes_colon : bytes ":" = [58] := by decide

theorem bytes_crlf_crlf : bytes "\r\n\r\n" = [13, 10, 13, 10] := by decide

/-! ## `generate_response`: auxiliary facts -/

theorem ERR_404_eq : ERR_404 = bytes "HTTP/1.1 404 Not Found\r\n\r\n" := by decide

theorem find_last_of_append_cons (a s : Bytes) (c : Nat) (hs : c ∉ s) :
    find_last_of (a ++ c :: s) c = some a.length := by
  have hnone : find_last_of s c = none := by
    induction s with
    | nil => rfl
    | cons x s ih =>
      have hx : x ≠ c := fun h => hs (h ▸ List.mem_cons_self _ _)
      have := ih (fun h => hs (List.mem_cons_of_mem _ h))
      simp [find_last_of, this, hx]
  induction a with
  | nil => simp [find_last_of, hnone]
  | cons x a ih => simp [find_last_of, ih]

theorem find_last_of_of_mem (s : Bytes) (c : Nat) (h : c ∈ s) :
    ∃ pos, find_last_of s c = some pos := by
  induction s with
  | nil => cases h
  | cons x s ih =>
    unfold find_last_of
    cases hf : find_last_of s c with
    | some i => exact ⟨i + 1, rfl⟩
    | none =>
      rcases List.mem_cons.mp h with h1 | h1
      · subst h1; exact ⟨0, by simp⟩
      · obtain ⟨pos, hpos⟩ := ih h1
        rw [hf] at hpos; cases hpos

theorem mem_of_getElem?_zero {s : Bytes} {c : Nat} (h : s[0]? = some c) : c ∈ s := by
  cases s with
  | nil => simp at h
  | cons x s => simp at h; subst h; exact List.mem_cons_self _ _

/-- A byte that occurs in a string has a last occurrence. -/
theorem last_occurrence (c : Nat) (t : Bytes) (h : c ∈ t) :
    ∃ t1 a, t = t1 ++ c :: a ∧ c ∉ a := by
  induction t with
  | nil => cases h
  | cons x t ih =>
    by_cases hc : c ∈ t
    · obtain ⟨t1, a, ht, ha⟩ := ih hc
      exact ⟨x :: t1, a, by rw [ht]; rfl, ha⟩
    · rcases List.mem_cons.mp h with h1 | h1
      · exact ⟨[], t, by rw [h1]; rfl, hc⟩
      · exact absurd h1 hc

/-- What `generate_response` does once the path is known to start with '/', to
be longer than one byte, and to have its last '/' in front of `a`. -/
theorem generate_response_split (fs : FileStore) (directory : Option Bytes) (request : Request)
    (p a : Bytes) (hpath : request.path = p ++ 47 :: a) (ha : 47 ∉ a)
    (h0 : request.path[0]? = some 47) (hlen : request.path ≠ bytes "/") :
    generate_response fs directory request =
      match request.type with
      | RequestType.GET =>
        if p = bytes "/echo" then
          Result.ok (OK ++ CONTENT_TYPE (bytes "text/plain")
            ++ CONTENT_LENGTH (to_string (a.takeWhile (fun c => decide (c ≠ 0))).length)
            ++ END_HEADER ++ a.takeWhile (fun c => decide (c ≠ 0)), fs)
        else if request.path = bytes "/user-agent" then
          match request.headers.find (bytes "user-agent") with
          | none => Result.ok (ERR_404, fs)
          | some value =>
            Result.ok (OK ++ CONTENT_TYPE (bytes "text/plain")
              ++ CONTENT_LENGTH (to_string value.length) ++ END_HEADER ++ value, fs)
        else if p = bytes "/files" then
          match find_file fs directory (a.takeWhile (fun c => decide (c ≠ 0))) with
          | some file =>
            Result.ok (OK ++ CONTENT_TYPE (bytes "application/octet-stream")
              ++ CONTENT_LENGTH (to_string file.length) ++ END_HEADER ++ file, fs)
          | none => Result.ok (ERR_404, fs)
        else Result.ok (ERR_404, fs)
      | RequestType.POST =>
        if p = bytes "/files" then
          match create_file fs directory (a.takeWhile (fun c => decide (c ≠ 0))) request with
          | Result.ok (true, fs1) => Result.ok (CREATED ++ END_HEADER, fs1)
          | Result.ok (false, fs1) => Result.ok (ERR_404, fs1)
          | Result.fault => Result.fault
          | Result.timeout => Result.timeout
        else Result.ok (ERR_404, fs)
      | RequestType.UNKNOWN => Result.ok (ERR_404, fs) := by
  have hstart : ¬ (request.path = [] ∨ request.path[0]? ≠ some 47) := by
    intro h
    rcases h with h | h
    · rw [h] at h0; simp at h0
    · exact h h0
  have hlen1 : request.path.length ≠ 1 := by
    intro h
    apply hlen
    match hp : request.path, h, h0 with
    | [x], _, h0 =>
      simp at h0
      subst h0
      decide
  have hlast : find_last_of request.path 47 = some p.length := by
    rw [hpath]; exact find_last_of_append_cons p a 47 ha
  have htake : request.path.take p.length = p := by
    rw [hpath]; exact List.take_left _ _
  have hdrop : request.path.drop (p.length + 1) = a := by
    rw [hpath, List.drop_append]; rfl
  unfold generate_response
  rw [if_neg hstart, if_neg hlen1]
  simp only [hlast, htake, hdrop]

theorem generate_response_user_agent (fs : FileStore) (directory : Option Bytes)
    (ver : Bytes) (headers : Headers) (body value : Bytes)
    (h : headers.find (bytes "user-agent") = some value) :
    generate_response fs directory
        { type := RequestType.GET, path := bytes "/user-agent", ver := ver,
          headers := headers, body := body }
      = Result.ok (bytes "HTTP/1.1 200 OK\r\nContent-Type: text/plain\r\nContent-Length: "
          ++ to_string value.length ++ bytes "\r\n\r\n" ++ value, fs) := by
  have hne : ¬ (bytes "/user-agent" = [] ∨ (bytes "/user-agent")[0]? ≠ some 47) := by decide
  have hlen : (bytes "/user-agent").length ≠ 1 := by decide
  have hlast : find_last_of (bytes "/user-agent") 47 = some 0 := by decide
  have hpre : (bytes "/user-agent").take 0 ≠ bytes "/echo" := by decide
  have hresp : OK ++ CONTENT_TYPE (bytes "text/plain") ++ CONTENT_LENGTH (to_string value.length)
        ++ END_HEADER ++ value
      = bytes "HTTP/1.1 200 OK\r\nContent-Type: text/plain\r\nContent-Length: "
          ++ to_string value.length ++ bytes "\r\n\r\n" ++ value := by
    have e1 : OK ++ CONTENT_TYPE (bytes "text/plain") ++ bytes "Content-Length: "
        = bytes "HTTP/1.1 200 OK\r\nContent-Type: text/plain\r\nContent-Length: " := by decide
    have e2 : CR ++ END_HEADER = bytes "\r\n\r\n" := by decide
    rw [← e1, ← e2]
    simp [CONTENT_LENGTH, List.append_assoc]
  unfold generate_response
  simp only [hne, hlen, if_false, hlast, hpre, if_true, h, hresp]

theorem wire_format_404 : wire_format ERR_404 :=
  ⟨bytes "HTTP/1.1 404 Not Found\r\n", by simp, Or.inl (by decide)⟩

theorem wire_format_ok : wire_format (OK ++ END_HEADER) :=
  ⟨bytes "HTTP/1.1 200 OK\r\n", by simp, Or.inl (by decide)⟩

theorem wire_format_created : wire_format (CREATED ++ END_HEADER) :=
  ⟨bytes "HTTP/1.1 201 Created\r\n", by simp, Or.inl (by decide)⟩

theorem wire_format_body (ctype body : Bytes)
    (h : ctype ∈ [bytes "text/plain", bytes "application/octet-stream"]) :
    wire_format (OK ++ CONTENT_TYPE ctype ++ CONTENT_LENGTH (to_string body.length)
      ++ END_HEADER ++ body) := by
  refine ⟨bytes "HTTP/1.1 200 OK\r\n", by simp, Or.inr ⟨ctype, body, h, ?_⟩⟩
  have e1 : OK = bytes "HTTP/1.1 200 OK\r\n" := by decide
  have e2 : END_HEADER = bytes "\r\n" := by decide
  have e3 : CR = bytes "\r\n" := by decide
  simp only [CONTENT_TYPE, CONTENT_LENGTH, e1, e2, e3, List.append_assoc]

/-- `create_file` returns in every case. -/
theorem create_file_total (fs : FileStore) (directory : Option Bytes) (file : Bytes)
    (req : Request) :
    ∃ b fs1, create_file fs directory file req = Result.ok (b, fs1) := by
  unfold create_file
  split
  · exact ⟨_, _, rfl⟩
  · split
    · exact ⟨_, _, rfl⟩
    · dsimp only
      split
      · exact ⟨_, _, rfl⟩
      · split
        · exact ⟨_, _, rfl⟩
        · exact ⟨_, _, rfl⟩

/-! ## Invariants, header sections and the file store: auxiliary facts -/

/-- What holds before a loop and is kept by its body holds when the loop is left. -/
theorem run_loop_invariant {σ ρ : Type} (step : σ → Step σ ρ) (inv : σ → Prop) (post : ρ → Prop)
    (hnext : ∀ s s1, inv s → step s = Step.next s1 → inv s1)
    (hdone : ∀ s r, inv s → step s = Step.done r → post r) (f : Nat) :
    ∀ (s : σ) (r : ρ), inv s → run_loop step f s = Result.ok r → post r := by
  induction f with
  | zero =>
    intro s r _ h
    simp [run_loop] at h
  | succ f ih =>
    intro s r hs h
    simp only [run_loop] at h
    cases hstep : step s with
    | next s1 =>
      rw [hstep] at h
      exact ih s1 r (hnext s s1 hs hstep) h
    | done r1 =>
      rw [hstep] at h
      injection h with h
      subst h
      exact hdone s r1 hs hstep
    | fault =>
      rw [hstep] at h
      cases h

theorem tolower_not_upper (c : Nat) : ¬ (65 ≤ tolower c ∧ tolower c ≤ 90) := by
  unfold tolower
  split <;> omega

theorem lowercased_map_tolower (s : Bytes) : lowercased (s.map tolower) := by
  intro c hc
  obtain ⟨d, _, rfl⟩ := List.mem_map.mp hc
  exact tolower_not_upper d

theorem lowercased_keys_set (hs : Headers) (key value : Bytes)
    (h : ∀ e ∈ hs, lowercased e.1) (hk : lowercased key) :
    ∀ e ∈ hs.set key value, lowercased e.1 := by
  intro e he
  unfold Headers.set at he
  rcases List.mem_cons.mp he with h1 | h1
  · rw [h1]; exact hk
  · exact h e (List.mem_of_mem_filter h1)

/-- The header loop keeps the pending key and all stored keys lowercased. -/
theorem header_step_lowercased_next (s s1 : HeaderState)
    (hinv : lowercased s.key ∧ ∀ e ∈ s.headers, lowercased e.1)
    (h : header_step s = Step.next s1) :
    lowercased s1.key ∧ ∀ e ∈ s1.headers, lowercased e.1 := by
  have hnil : lowercased [] := fun c hc => by cases hc
  have hset := lowercased_keys_set s.headers s.key (List.take s.o s.msg) hinv.2 hinv.1
  unfold header_step at h
  split at h
  · cases h
  · split at h
    · cases h
    · split at h
      · cases h
      · repeat' split at h
        all_goals (cases h; try (first
          | exact ⟨lowercased_map_tolower _, hinv.2⟩
          | exact ⟨hnil, hset⟩
          | exact ⟨hnil, hinv.2⟩
          | exact hinv))

theorem header_step_lowercased_done (s : HeaderState) (r : Headers × Bytes)
    (hinv : lowercased s.key ∧ ∀ e ∈ s.headers, lowercased e.1)
    (h : header_step s = Step.done r) :
    ∀ e ∈ r.1, lowercased e.1 := by
  have hset := lowercased_keys_set s.headers s.key (List.take s.o s.msg) hinv.2 hinv.1
  unfold header_step at h
  split at h
  · cases h
  · split at h
    · cases h; exact hinv.2
    · split at h
      · cases h
      · repeat' split at h
        all_goals (cases h; try (first
          | exact hset
          | exact hinv.2))

theorem header_loop_lowercased (msg : Bytes) (hs : Headers) (msg2 : Bytes)
    (h : header_loop ⟨msg, 0, [], []⟩ = Result.ok (hs, msg2)) :
    ∀ e ∈ hs, lowercased e.1 :=
  run_loop_invariant header_step
    (fun s => lowercased s.key ∧ ∀ e ∈ s.headers, lowercased e.1)
    (fun r => ∀ e ∈ r.1, lowercased e.1)
    header_step_lowercased_next header_step_lowercased_done _ _ _
    ⟨(fun c hc => by cases hc), (fun e he => by cases he)⟩ h

/-- When `read_request` returns a Request, its parts come from the two loops. -/
theorem read_request_some (msg : Bytes) (req : Request)
    (h : read_request msg = Result.ok (some req)) :
    ∃ m msg1 msg2,
      request_line_loop ⟨msg, 0, []⟩ = Result.ok ([m, req.path, req.ver], msg1)
        ∧ request_type m = some req.type
        ∧ header_loop ⟨msg1, 0, [], []⟩ = Result.ok (req.headers, msg2)
        ∧ cstr msg2 = some req.body := by
  unfold read_request at h
  split at h
  · cases h
  · cases h
  · rename_i request_line msg1 h1
    split at h
    · rename_i m p v
      split at h
      · cases h
      · rename_i t ht
        split at h
        · cases h
        · cases h
        · rename_i hs msg2 h2
          split at h
          · cases h
          · rename_i body h3
            injection h with h
            injection h with h
            subst h
            exact ⟨m, msg1, msg2, h1, ht, h2, h3⟩
    · cases h

theorem take_ne_nil_of_pos {msg : Bytes} {o c0 : Nat} (h0 : msg[0]? = some c0) (ho : 0 < o) :
    msg.take o ≠ [] := by
  cases msg with
  | nil => simp at h0
  | cons x rest =>
    cases o with
    | zero => omega
    | succ n => simp

/-- The request-line loop stores no empty token on a space. -/
theorem request_line_step_nonempty_next (s s1 : LineState)
    (hinv : ∀ t ∈ s.request_line, t ≠ [])
    (h : request_line_step s = Step.next s1) :
    ∀ t ∈ s1.request_line, t ≠ [] := by
  unfold request_line_step at h
  split at h
  · cases h
  · rename_i c0 h0
    split at h
    · cases h
    · split at h
      · cases h
      · split at h
        · split at h
          · rename_i ho
            cases h
            intro t ht
            rcases List.mem_append.mp ht with h1 | h1
            · exact hinv t h1
            · rw [List.mem_singleton.mp h1]
              exact take_ne_nil_of_pos h0 ho
          · cases h; exact hinv
        · repeat' split at h
          all_goals (cases h; try exact hinv)

/-- When the request-line loop is left, only the last token can be empty. -/
theorem request_line_step_nonempty_done (s : LineState) (r : List Bytes × Bytes)
    (hinv : ∀ t ∈ s.request_line, t ≠ [])
    (h : request_line_step s = Step.done r) :
    ∀ t ∈ r.1.dropLast, t ≠ [] := by
  unfold request_line_step at h
  split at h
  · cases h
  · split at h
    · cases h
      intro t ht
      exact hinv t (List.mem_of_mem_dropLast ht)
    · split at h
      · cases h
      · repeat' split at h
        all_goals (cases h; try (intro t ht; rw [List.dropLast_concat] at ht; exact hinv t ht))

theorem request_line_loop_nonempty (msg : Bytes) (tokens : List Bytes) (msg1 : Bytes)
    (h : request_line_loop ⟨msg, 0, []⟩ = Result.ok (tokens, msg1)) :
    ∀ t ∈ tokens.dropLast, t ≠ [] :=
  run_loop_invariant request_line_step
    (fun s => ∀ t ∈ s.request_line, t ≠ [])
    (fun r => ∀ t ∈ r.1.dropLast, t ≠ [])
    request_line_step_nonempty_next request_line_step_nonempty_done _ _ _
    (fun t ht => by cases ht) h

theorem request_type_some (m : Bytes) (t : RequestType) (h : request_type m = some t) :
    t = RequestType.GET ∨ t = RequestType.POST := by
  unfold request_type at h
  split at h
  · injection h with h; exact Or.inl h.symm
  · split at h
    · injection h with h; exact Or.inr h.symm
    · cases h

theorem strlen_of_mem (msg : Bytes) (h : 0 ∈ msg) : ∃ n, strlen msg = some n := by
  induction msg with
  | nil => cases h
  | cons c rest ih =>
    unfold strlen
    by_cases hc : c = 0
    · exact ⟨0, by simp [hc]⟩
    · have hr : 0 ∈ rest := by
        rcases List.mem_cons.mp h with h1 | h1
        · exact absurd h1.symm hc
        · exact h1
      obtain ⟨n, hn⟩ := ih hr
      exact ⟨n + 1, by simp [hc, hn]⟩

theorem mem_strip_space (x : Bytes) : ∀ c ∈ strip_space x, c ∈ x := by
  intro c hc
  unfold strip_space at hc
  split at hc
  · exact List.mem_cons_of_mem _ hc
  · exact hc

/-- The header loop on a well-formed line, up to the CR that ends it. -/
theorem header_loop_to_line_end (e : Bytes × Bytes) (rest : Bytes) (hs : Headers)
    (hwf : well_formed_line e) :
    header_loop ⟨e.1 ++ 58 :: (e.2 ++ rest), 0, [], hs⟩
      = header_loop ⟨header_value e ++ rest, (header_value e).length, header_key e, hs⟩ := by
  obtain ⟨hk, hk1, hw, hw1⟩ := hwf
  have hk32 : e.1 ≠ [32] := by
    intro h; rw [h] at hk1; exact hk1 rfl
  rw [header_loop_field e.1 _ [] hs
    (fun c hc => ⟨(hk c hc).2.1, (hk c hc).2.2, fun _ => (hk c hc).1⟩) hk32]
  obtain ⟨k0, hk0, hk0'⟩ : ∃ c0, (strip_space e.1)[0]? = some c0 ∧ c0 ≠ 0 := by
    cases hsk : strip_space e.1 with
    | nil => exact absurd hsk hk1
    | cons a r =>
      exact ⟨a, by simp, (hk a (mem_strip_space e.1 a (by rw [hsk]; simp))).2.2⟩
  have hkpos : 0 < (strip_space e.1).length := lt_of_getElem?_some hk0
  rw [header_loop_next (@header_step_colon _ _ k0 hs
    (by rw [List.getElem?_append_left hkpos, hk0]) hk0'
    (by rw [List.getElem?_append_right (Nat.le_refl _)]; simp))]
  rw [List.take_left, List.drop_append 1]
  simp only [List.drop_succ_cons, List.drop_zero]
  have hkey : (strip_space e.1).map tolower ≠ [] := by
    intro h; exact hk1 (List.map_eq_nil_iff.mp h)
  rw [header_loop_field e.2 _ _ hs
    (fun c hc => ⟨(hw c hc).1, (hw c hc).2, fun h => absurd h hkey⟩) hw1]
  rfl

theorem header_key_ne_nil (e : Bytes × Bytes) (hwf : well_formed_line e) : header_key e ≠ [] := by
  intro h
  exact hwf.2.1 (List.map_eq_nil_iff.mp h)

theorem header_value_head (e : Bytes × Bytes) (rest : Bytes) (hwf : well_formed_line e) :
    ∃ c0, (header_value e ++ 13 :: rest)[0]? = some c0 ∧ c0 ≠ 0 := by
  unfold header_value
  cases hsw : strip_space e.2 with
  | nil => exact ⟨13, by simp, by decide⟩
  | cons a r =>
    exact ⟨a, by simp, (hwf.2.2.1 a (mem_strip_space e.2 a (by rw [hsw]; simp))).2⟩

/-- The header loop on a well-formed line that another line follows. -/
theorem header_loop_line_next (e : Bytes × Bytes) (rest : Bytes) (hs : Headers) (c2 : Nat)
    (hwf : well_formed_line e) (hc2 : rest[0]? = some c2) (h13 : c2 ≠ 13) (hnul : 0 ∈ rest) :
    header_loop ⟨e.1 ++ 58 :: (e.2 ++ 13 :: 10 :: rest), 0, [], hs⟩
      = header_loop ⟨rest, 0, [], hs.set (header_key e) (header_value e)⟩ := by
  rw [header_loop_to_line_end e _ hs hwf]
  obtain ⟨w0, hw0a, hw0b⟩ := header_value_head e (10 :: rest) hwf
  obtain ⟨n, hn⟩ := strlen_of_mem (header_value e ++ 13 :: 10 :: rest) (by simp [hnul])
  rw [header_loop_next (@header_step_crlf_next _ _ w0 n c2 _ hs hw0a hw0b
    (by rw [List.getElem?_append_right (Nat.le_refl _)]; simp)
    (by rw [List.getElem?_append_right (Nat.le_succ _)]; simp)
    hn
    (by rw [List.getElem?_append_right (by omega)]; simpa using hc2) h13)]
  rw [List.take_left, List.drop_append 2, if_pos (header_key_ne_nil e hwf)]
  rfl

/-- The header loop on a well-formed line that the empty line follows. -/
theorem header_loop_line_last (e : Bytes × Bytes) (junk : Bytes) (hs : Headers)
    (hwf : well_formed_line e) :
    header_loop ⟨e.1 ++ 58 :: (e.2 ++ 13 :: 10 :: 13 :: 10 :: 0 :: junk), 0, [], hs⟩
      = Result.ok (hs.set (header_key e) (header_value e), 0 :: junk) := by
  rw [header_loop_to_line_end e _ hs hwf]
  obtain ⟨w0, hw0a, hw0b⟩ := header_value_head e (10 :: 13 :: 10 :: 0 :: junk) hwf
  have hw0 : ∀ c ∈ header_value e, c ≠ 0 :=
    fun c hc => (hwf.2.2.1 c (mem_strip_space e.2 c hc)).2
  have hlen : strlen (header_value e ++ 13 :: 10 :: 13 :: 10 :: 0 :: junk)
      = some (4 + (header_value e).length) := by
    rw [strlen_append _ _ hw0]
    simp [strlen]
  have hguard : strlen_guard (4 + (header_value e).length) (header_value e).length = true := by
    unfold strlen_guard
    simp only [bne_iff_ne, ne_eq]
    omega
  rw [header_loop_done (@header_step_crlf_end _ _ w0 _ _ hs hw0a hw0b
    (by rw [List.getElem?_append_right (Nat.le_refl _)]; simp)
    (by rw [List.getElem?_append_right (Nat.le_succ _)]; simp)
    hlen hguard
    (by rw [List.getElem?_append_right (by omega)]; simp)
    (by rw [List.getElem?_append_right (by omega)]; simp))]
  rw [List.take_left, List.drop_append 4, if_pos (header_key_ne_nil e hwf)]
  rfl

theorem header_line_eq (e : Bytes × Bytes) (rest : Bytes) :
    header_line e ++ rest = e.1 ++ 58 :: (e.2 ++ 13 :: 10 :: rest) := by
  unfold header_line
  simp only [bytes_colon, bytes_crlf, List.append_assoc, List.cons_append, List.nil_append]

/-- The header loop on a non-empty section of well-formed lines and the empty line. -/
theorem header_loop_section (junk : Bytes) :
    ∀ (lines : List (Bytes × Bytes)) (e : Bytes × Bytes) (hs : Headers),
      (∀ x ∈ e :: lines, well_formed_line x) →
      header_loop ⟨header_section (e :: lines) ++ 13 :: 10 :: 0 :: junk, 0, [], hs⟩
        = Result.ok ((e :: lines).foldl
            (fun hs x => hs.set (header_key x) (header_value x)) hs, 0 :: junk) := by
  intro lines
  induction lines with
  | nil =>
    intro e hs hwf
    have h := header_loop_line_last e junk hs (hwf e (List.mem_cons_self _ _))
    simp only [header_section, List.append_nil, header_line_eq, List.foldl_cons, List.foldl_nil]
    exact h
  | cons e1 lines ih =>
    intro e hs hwf
    have hwf1 : ∀ x ∈ e1 :: lines, well_formed_line x :=
      fun x hx => hwf x (List.mem_cons_of_mem _ hx)
    have hw1 := hwf e1 (by simp)
    obtain ⟨c2, hc2, h13⟩ : ∃ c2,
        (header_section (e1 :: lines) ++ 13 :: 10 :: 0 :: junk)[0]? = some c2 ∧ c2 ≠ 13 := by
      simp only [header_section, List.append_assoc, header_line_eq]
      cases hk : e1.1 with
      | nil => exact ⟨58, by simp, by decide⟩
      | cons a r =>
        exact ⟨a, by simp, (hw1.1 a (by rw [hk]; simp)).2.1⟩
    have hstep := header_loop_line_next e
      (header_section (e1 :: lines) ++ 13 :: 10 :: 0 :: junk) hs c2
      (hwf e (List.mem_cons_self _ _)) hc2 h13 (by simp)
    have hshape : header_section (e :: e1 :: lines) ++ 13 :: 10 :: 0 :: junk
        = e.1 ++ 58 :: (e.2 ++ 13 :: 10 ::
            (header_section (e1 :: lines) ++ 13 :: 10 :: 0 :: junk)) := by
      rw [header_section, List.append_assoc, header_line_eq]
    rw [hshape, hstep, ih e1 _ hwf1]
    rfl

theorem filter_set_same (hs : Headers) (k v : Bytes) :
    (hs.set k v).filter (fun x => decide (x.1 = k)) = [(k, v)] := by
  unfold Headers.set
  rw [List.filter_cons_of_pos (by simp), List.filter_filter]
  congr 1
  apply List.filter_eq_nil_iff.mpr
  intro x _
  simp

theorem filter_set_other (hs : Headers) (k k1 v1 : Bytes) (h : k1 ≠ k) :
    (hs.set k1 v1).filter (fun x => decide (x.1 = k)) = hs.filter (fun x => decide (x.1 = k)) := by
  unfold Headers.set
  rw [List.filter_cons_of_neg (by simpa using h), List.filter_filter]
  apply List.filter_congr
  intro x _
  by_cases hx : x.1 = k
  · simp [hx, Ne.symm h]
  · simp [hx]

theorem filter_foldl_set_other (k : Bytes) (lines : List (Bytes × Bytes))
    (h : ∀ x ∈ lines, header_key x ≠ k) :
    ∀ hs : Headers,
      (lines.foldl (fun hs x => hs.set (header_key x) (header_value x)) hs).filter
          (fun x => decide (x.1 = k))
        = hs.filter (fun x => decide (x.1 = k)) := by
  induction lines with
  | nil => intro hs; rfl
  | cons e lines ih =>
    intro hs
    rw [List.foldl_cons, ih (fun x hx => h x (List.mem_cons_of_mem _ hx))]
    exact filter_set_other hs k _ _ (h e (List.mem_cons_self _ _))

theorem find_of_filter (hs : Headers) (k v : Bytes)
    (h : hs.filter (fun x => decide (x.1 = k)) = [(k, v)]) : hs.find k = some v := by
  unfold Headers.find
  induction hs with
  | nil => simp at h
  | cons x hs ih =>
    obtain ⟨k1, v1⟩ := x
    by_cases hk : k1 = k
    · subst hk
      rw [List.filter_cons_of_pos (by simp)] at h
      injection h with h1 _
      injection h1 with _ h2
      subst h2
      simp [List.lookup]
    · rw [List.filter_cons_of_neg (by simpa using hk)] at h
      have hne : (k == k1) = false := by simpa using (Ne.symm hk)
      rw [List.lookup_cons, hne]
      exact ih h

/-- In the header map of a section, the last line with a given key has the only entry. -/
theorem parsed_headers_last (pre post : List (Bytes × Bytes)) (e : Bytes × Bytes)
    (hlast : ∀ x ∈ post, header_key x ≠ header_key e) :
    (parsed_headers (pre ++ e :: post)).filter (fun x => decide (x.1 = header_key e))
      = [(header_key e, header_value e)] := by
  unfold parsed_headers
  rw [List.foldl_append, List.foldl_cons, filter_foldl_set_other _ post hlast]
  exact filter_set_same _ _ _

/-- `read_request` on a request line, a section of well-formed header lines and
the empty line. -/
theorem read_request_section (t : RequestType)
    (ht : t = RequestType.GET ∨ t = RequestType.POST) (p v junk : Bytes)
    (lines : List (Bytes × Bytes)) (hp : is_token p) (hv : is_token v)
    (hwf : ∀ x ∈ lines, well_formed_line x) :
    read_request (method_name t ++ 32 :: (p ++ 32 :: (v ++ 13 :: 10 ::
        (header_section lines ++ 13 :: 10 :: 0 :: junk))))
      = Result.ok (some {
          type := t, path := p, ver := v, headers := parsed_headers lines, body := [] }) := by
  cases lines with
  | nil => exact read_request_no_header t ht p v junk hp hv
  | cons e lines =>
    exact read_request_of_loops (request_line_loop_three _ _ _ _ (is_token_method t ht) hp hv)
      (request_type_method_name t ht) (header_loop_section junk lines e [] hwf) (cstr_nul junk)

/-- On a section of well-formed header lines the last line of a name wins: for
a line `e` that no later line matches in name up to letter case, the map that
`read_request` returns holds exactly one entry for the lowercased name of `e`,
with the value of `e`. -/
theorem read_request_section_last_wins (t : RequestType)
    (ht : t = RequestType.GET ∨ t = RequestType.POST) (p v junk : Bytes)
    (pre post : List (Bytes × Bytes)) (e : Bytes × Bytes)
    (hp : is_token p) (hv : is_token v)
    (hwf : ∀ x ∈ pre ++ e :: post, well_formed_line x)
    (hlast : ∀ x ∈ post, header_key x ≠ header_key e) :
    read_request (method_name t ++ bytes " " ++ p ++ bytes " " ++ v ++ bytes "\r\n"
        ++ header_section (pre ++ e :: post) ++ bytes "\r\n" ++ 0 :: junk)
      = Result.ok (some {
          type := t, path := p, ver := v,
          headers := parsed_headers (pre ++ e :: post), body := [] })
    ∧ (parsed_headers (pre ++ e :: post)).filter (fun x => decide (x.1 = header_key e))
      = [(header_key e, header_value e)]
    ∧ (parsed_headers (pre ++ e :: post)).find (header_key e) = some (header_value e) := by
  have h := read_request_section t ht p v junk (pre ++ e :: post) hp hv hwf
  have hf := parsed_headers_last pre post e hlast
  refine ⟨?_, hf, find_of_filter _ _ _ hf⟩
  simpa only [bytes_space, bytes_crlf, List.append_assoc, List.cons_append,
    List.nil_append] using h

theorem takeWhile_no_nul (s : Bytes) (h : ∀ c ∈ s, c ≠ 0) :
    s.takeWhile (fun c => decide (c ≠ 0)) = s :=
  List.takeWhile_eq_self_iff.mpr (fun c hc => by simpa using h c hc)

theorem not_mem_takeWhile (s : Bytes) (h : 47 ∉ s) :
    47 ∉ s.takeWhile (fun c => decide (c ≠ 0)) :=
  fun hc => h (List.takeWhile_subset _ hc)

/-- What `generate_response` does on a path "/files/" followed by a text without '/'. -/
theorem generate_response_files (fs : FileStore) (directory : Option Bytes) (request : Request)
    (a : Bytes) (hpath : request.path = bytes "/files/" ++ a) (ha : 47 ∉ a) :
    generate_response fs directory request =
      match request.type with
      | RequestType.GET =>
        match find_file fs directory (a.takeWhile (fun c => decide (c ≠ 0))) with
        | some file =>
          Result.ok (OK ++ CONTENT_TYPE (bytes "application/octet-stream")
            ++ CONTENT_LENGTH (to_string file.length) ++ END_HEADER ++ file, fs)
        | none => Result.ok (ERR_404, fs)
      | RequestType.POST =>
        match create_file fs directory (a.takeWhile (fun c => decide (c ≠ 0))) request with
        | Result.ok (true, fs1) => Result.ok (CREATED ++ END_HEADER, fs1)
        | Result.ok (false, fs1) => Result.ok (ERR_404, fs1)
        | Result.fault => Result.fault
        | Result.timeout => Result.timeout
      | RequestType.UNKNOWN => Result.ok (ERR_404, fs) := by
  have e : bytes "/files/" = [47, 102, 105, 108, 101, 115, 47] := by decide
  have e1 : bytes "/files" = [47, 102, 105, 108, 101, 115] := by decide
  have e2 : bytes "/echo" = [47, 101, 99, 104, 111] := by decide
  have e3 : bytes "/user-agent" = [47, 117, 115, 101, 114, 45, 97, 103, 101, 110, 116] := by
    decide
  have e4 : bytes "/" = [47] := by decide
  have hpath1 : request.path = bytes "/files" ++ 47 :: a := by
    rw [hpath, e, e1]; rfl
  have h0 : request.path[0]? = some 47 := by
    rw [hpath, e]; rfl
  have hroot : request.path ≠ bytes "/" := by
    rw [hpath, e, e4]; simp
  have hua : request.path ≠ bytes "/user-agent" := by
    rw [hpath, e, e3]; simp
  have hecho : bytes "/files" ≠ bytes "/echo" := by decide
  rw [generate_response_split fs directory request (bytes "/files") a hpath1 ha h0 hroot]
  cases request.type with
  | GET => simp only [if_neg hecho, if_neg hua, if_true]
  | POST => simp only [if_true]
  | UNKNOWN => rfl

theorem response_file_eq (file : Bytes) :
    OK ++ CONTENT_TYPE (bytes "application/octet-stream")
        ++ CONTENT_LENGTH (to_string file.length) ++ END_HEADER ++ file
      = bytes "HTTP/1.1 200 OK\r\nContent-Type: application/octet-stream\r\nContent-Length: "
          ++ to_string file.length ++ bytes "\r\n\r\n" ++ file := by
  have e1 : OK ++ CONTENT_TYPE (bytes "application/octet-stream") ++ bytes "Content-Length: "
      = bytes "HTTP/1.1 200 OK\r\nContent-Type: application/octet-stream\r\nContent-Length: " := by
    decide
  have e2 : CR ++ END_HEADER = bytes "\r\n\r\n" := by decide
  rw [← e1, ← e2]
  simp [CONTENT_LENGTH, List.append_assoc]

theorem created_eq : CREATED ++ END_HEADER = bytes "HTTP/1.1 201 Created\r\n\r\n" := by decide

theorem big_file_length : big_file.length = 2 ^ 32 := by
  unfold big_file
  exact List.length_replicate _ _

theorem digitChar_toNat (d : Nat) (h : d < 10) : (Nat.digitChar d).toNat = 48 + d := by
  interval_cases d <;> rfl

theorem coe_list (l : Bytes) :
    (do let a ← l; pure (a : Int) : List Int) = l.map (fun (a : Nat) => (a : Int)) := by
  induction l with
  | nil => rfl
  | cons x l ih =>
    show (x : Int) :: (do let a ← l; pure (a : Int) : List Int) = _
    rw [ih]; rfl

theorem foldl_digits_init (ds : List Int) :
    ∀ a : Int, ds.foldl (fun a d => 10 * a + (d - 48)) a
      = a * 10 ^ ds.length + ds.foldl (fun a d => 10 * a + (d - 48)) 0 := by
  induction ds with
  | nil => intro a; simp
  | cons d ds ih =>
    intro a
    rw [List.foldl_cons, List.foldl_cons, ih (10 * a + (d - 48)),
      ih (10 * 0 + (d - 48)), List.length_cons, pow_succ]
    ring

/-- The decimal digits of `n`, put in front of `ds`, are digits and have the
value of `n` shifted over `ds`. -/
theorem toDigitsCore_spec (fuel : Nat) :
    ∀ (n : Nat) (ds : List Char), n < fuel →
      (∀ c ∈ ds.map Char.toNat, isdigit c = true) →
      (∀ c ∈ (Nat.toDigitsCore 10 fuel n ds).map Char.toNat, isdigit c = true)
        ∧ (((Nat.toDigitsCore 10 fuel n ds).map Char.toNat).map (fun (a : Nat) => (a : Int))).foldl
            (fun a d => 10 * a + (d - 48)) 0
          = (n : Int) * 10 ^ ds.length
            + ((ds.map Char.toNat).map (fun (a : Nat) => (a : Int))).foldl
                (fun a d => 10 * a + (d - 48)) 0
        ∧ Nat.toDigitsCore 10 fuel n ds ≠ [] := by
  induction fuel with
  | zero => intro n ds h; omega
  | succ fuel ih =>
    intro n ds hn hds
    have hd : (Nat.digitChar (n % 10)).toNat = 48 + n % 10 :=
      digitChar_toNat _ (Nat.mod_lt _ (by decide))
    have hds1 : ∀ c ∈ (Nat.digitChar (n % 10) :: ds).map Char.toNat, isdigit c = true := by
      intro c hc
      rw [List.map_cons] at hc
      rcases List.mem_cons.mp hc with h1 | h1
      · rw [h1, hd]
        have := Nat.mod_lt n (show 0 < 10 by decide)
        simp [isdigit]
        omega
      · exact hds c h1
    have hval : (((Nat.digitChar (n % 10) :: ds).map Char.toNat).map
          (fun (a : Nat) => (a : Int))).foldl (fun a d => 10 * a + (d - 48)) 0
        = ((n % 10 : Nat) : Int) * 10 ^ ds.length
          + ((ds.map Char.toNat).map (fun (a : Nat) => (a : Int))).foldl
              (fun a d => 10 * a + (d - 48)) 0 := by
      rw [List.map_cons, List.map_cons, List.foldl_cons, foldl_digits_init, hd, List.length_map,
        List.length_map]
      push_cast
      ring
    unfold Nat.toDigitsCore
    dsimp only
    split
    · rename_i hzero
      refine ⟨hds1, ?_, by simp⟩
      rw [hval]
      have : n % 10 = n := by omega
      rw [this]
    · rename_i hnz
      have hlt : n / 10 < fuel := by omega
      obtain ⟨h1, h2, h3⟩ := ih (n / 10) (Nat.digitChar (n % 10) :: ds) hlt hds1
      refine ⟨h1, ?_, h3⟩
      rw [h2, hval, List.length_cons, pow_succ]
      have hdiv : (n : Int) = ((n / 10 : Nat) : Int) * 10 + ((n % 10 : Nat) : Int) := by
        have := Nat.div_add_mod n 10
        omega
      rw [hdiv]
      push_cast
      ring_nf
      omega

theorem to_string_eq (n : Nat) : to_string n = (Nat.toDigits 10 n).map Char.toNat := rfl

/-- `std::stol` reads back what `std::to_string` writes, for a value that is a `long`. -/
theorem stol_to_string (n : Nat) (h : n < 2 ^ 63) : stol (to_string n) = some (n : Int) := by
  obtain ⟨hdig, hval, hne⟩ := toDigitsCore_spec (n + 1) n [] (Nat.lt_succ_self n)
    (fun c hc => by simp at hc)
  rw [to_string_eq]
  unfold Nat.toDigits
  generalize hD : (Nat.toDigitsCore 10 (n + 1) n []).map Char.toNat = digits at hdig hval
  have hDne : digits ≠ [] := by
    intro h0
    rw [h0] at hD
    exact hne (List.map_eq_nil_iff.mp hD)
  cases digits with
  | nil => exact absurd rfl hDne
  | cons d rest =>
    have hd := hdig d (List.mem_cons_self _ _)
    have hdr : 48 ≤ d ∧ d ≤ 57 := by simpa [isdigit] using hd
    have hsp : isspace d = false := by
      simp [isspace]
      omega
    have htw : (d :: rest).takeWhile isdigit = d :: rest :=
      List.takeWhile_eq_self_iff.mpr hdig
    have h45 : d ≠ 45 := by omega
    have h43 : d ≠ 43 := by omega
    simp only [List.map_nil, List.foldl_nil, List.length_nil, pow_zero, mul_one, add_zero] at hval
    have hdrop : (d :: rest).dropWhile isspace = d :: rest := by
      rw [List.dropWhile_cons_of_neg (by simp [hsp])]
    have hsign : ¬ ((d :: rest).head? = some 45 ∨ (d :: rest).head? = some 43) := by
      simp [h45, h43]
    have hneg : decide ((d :: rest).head? = some 45) = false := by
      simp [h45]
    have hrange : ¬ ((n : Int) < -2 ^ 63 ∨ 2 ^ 63 - 1 < (n : Int)) := by
      omega
    unfold stol
    simp only [hdrop, hsign, if_false, htw, hneg, coe_list, hval, hrange, hDne]
    simp
    omega

/-- GET "/files/" + `a` on a root where the file root + `a`, cut at the first NUL
of `a`, can be read. -/
theorem generate_response_file_read (fs : FileStore) (root a ver : Bytes) (headers : Headers)
    (body data : Bytes) (ha : 47 ∉ a)
    (hsome : fs.content (root ++ a.takeWhile (fun c => decide (c ≠ 0))) = some data) :
    generate_response fs (some root)
        { type := RequestType.GET, path := bytes "/files/" ++ a, ver := ver,
          headers := headers, body := body }
      = Result.ok (bytes
          "HTTP/1.1 200 OK\r\nContent-Type: application/octet-stream\r\nContent-Length: "
          ++ to_string (data.take (data.length % 2 ^ 32)).length ++ bytes "\r\n\r\n"
          ++ data.take (data.length % 2 ^ 32), fs) := by
  have hgen := generate_response_files fs (some root)
    { type := RequestType.GET, path := bytes "/files/" ++ a, ver := ver,
      headers := headers, body := body } a rfl ha
  dsimp only at hgen
  rw [hgen]
  simp only [find_file, hsome]
  rw [response_file_eq]

/-- `f.write` with the size of the body as count writes the body. -/
theorem written_body (fs : FileStore) (body : Bytes) (hlen : body.length < 2 ^ 63) :
    written fs body body.length = body := by
  unfold written
  rw [if_neg (by omega)]
  have h0 : body.length - (body.length + 1) = 0 := by omega
  rw [h0, List.range_zero, List.map_nil]
  exact List.take_left _ _

/-- POST "/files/" + `a` with a Content-Length that is the size of the body, on
a root where the file root + `a`, cut at the first NUL of `a`, can be opened. -/
theorem generate_response_file_written (fs : FileStore) (root a ver : Bytes)
    (headers : Headers) (body : Bytes) (ha : 47 ∉ a)
    (hopen : fs.canOpen (root ++ a.takeWhile (fun c => decide (c ≠ 0))) = true)
    (hcl : headers.find (bytes "content-length") = some (to_string body.length))
    (hlen : body.length < 2 ^ 63) :
    generate_response fs (some root)
        { type := RequestType.POST, path := bytes "/files/" ++ a, ver := ver,
          headers := headers, body := body }
      = Result.ok (bytes "HTTP/1.1 201 Created\r\n\r\n",
          (fs.put (root ++ a.takeWhile (fun c => decide (c ≠ 0))) []).put
            (root ++ a.takeWhile (fun c => decide (c ≠ 0))) body) := by
  have hgen := generate_response_files fs (some root)
    { type := RequestType.POST, path := bytes "/files/" ++ a, ver := ver,
      headers := headers, body := body } a rfl ha
  dsimp only at hgen
  have hnum : ((body.length : Int) % 2 ^ 64).toNat = body.length := by
    have h1 : ((body.length : Int) % 2 ^ 64) = (body.length : Int) :=
      Int.emod_eq_of_lt (by omega) (by omega)
    rw [h1]
    exact Int.toNat_ofNat _
  have hcreate : create_file fs (some root) (a.takeWhile (fun c => decide (c ≠ 0)))
      { type := RequestType.POST, path := bytes "/files/" ++ a, ver := ver,
        headers := headers, body := body }
      = Result.ok (true,
          (fs.put (root ++ a.takeWhile (fun c => decide (c ≠ 0))) []).put
            (root ++ a.takeWhile (fun c => decide (c ≠ 0))) body) := by
    unfold create_file
    simp only [hopen, hcl, stol_to_string body.length hlen, hnum]
    rw [show written fs body body.length = body from written_body fs body hlen]
    simp
  rw [hgen, hcreate, created_eq]

theorem serve_all_gets (fs : FileStore) (directory : Option Bytes) (request : Request)
    (response : Bytes)
    (h : generate_response fs directory request = Result.ok (response, fs)) :
    ∀ k : Nat, serve_all directory fs (List.replicate k request)
      = Result.ok (List.replicate k response, fs) := by
  intro k
  induction k with
  | zero => rfl
  | succ k ih =>
    rw [List.replicate_succ, serve_all, h]
    dsimp only
    rw [ih]
    rfl

theorem content_put (fs : FileStore) (p c : Bytes) : (fs.put p c).content p = some c := by
  simp [FileStore.put]

theorem find_file_reads_one_path (fs1 fs2 : FileStore) (root file : Bytes)
    (h : fs1.content (root ++ file) = fs2.content (root ++ file)) :
    find_file fs1 (some root) file = find_file fs2 (some root) file := by
  simp only [find_file, h]

theorem create_file_writes_one_path (fs fs1 : FileStore) (root file : Bytes) (req : Request)
    (b : Bool) (h : create_file fs (some root) file req = Result.ok (b, fs1)) :
    fs1.canOpen = fs.canOpen ∧ ∀ q, q ≠ root ++ file → fs1.content q = fs.content q := by
  unfold create_file at h
  dsimp only at h
  repeat' split at h
  all_goals (cases h; try (refine ⟨rfl, ?_⟩; intro q hq; simp [FileStore.put, hq]))

/-! ## The claims -/

/-- C1 (code defect): the request line "GET / " holds only two non-empty tokens,
but `read_request` on the NUL-terminated buffer "GET / \r\n\r\n" returns a
Request (GET, path "/", empty version): the CRLF branch of the request-line loop
stores the token in front of it even when that token is empty. The handler then
writes a 200 response. -/
theorem read_request_trailing_space :
    read_request (bytes "GET / \r\n\r\n" ++ [0])
        = Result.ok (some { type := RequestType.GET, path := bytes "/", ver := [],
                            headers := [], body := [] })
      ∧ handle empty_store none (bytes "GET / \r\n\r\n" ++ [0])
        = Result.ok (some (bytes "HTTP/1.1 200 OK\r\n\r\n"), empty_store) := by
  constructor
  · decide
  · rfl

/-- C2: for a method GET or POST and non-empty `p` and `v` without space, CR, LF
or NUL, `read_request` on the buffer method, space, `p`, space, `v`, CRLF, CRLF,
NUL (whatever lies behind the NUL) returns the Request with that method, path
`p`, version `v`, no header and an empty body. -/
theorem read_request_request_line_only (t : RequestType)
    (ht : t = RequestType.GET ∨ t = RequestType.POST) (p v junk : Bytes)
    (hp : is_token p) (hv : is_token v) :
    read_request (method_name t ++ bytes " " ++ p ++ bytes " " ++ v ++ bytes "\r\n\r\n"
        ++ 0 :: junk)
      = Result.ok (some { type := t, path := p, ver := v, headers := [], body := [] }) := by
  have h := read_request_no_header t ht p v junk hp hv
  simpa only [bytes_space, bytes_crlf_crlf, List.append_assoc, List.cons_append,
    List.nil_append] using h

/-- C2, witness: "GET / HTTP/1.1\r\n\r\n" gives method GET, path "/", version
"HTTP/1.1", no header, empty body. -/
theorem read_request_request_line_only_witness :
    read_request (bytes "GET / HTTP/1.1\r\n\r\n" ++ [0])
      = Result.ok (some { type := RequestType.GET, path := bytes "/", ver := bytes "HTTP/1.1",
                          headers := [], body := [] }) :=
  read_request_request_line_only RequestType.GET (Or.inl rfl) (bytes "/") (bytes "HTTP/1.1") []
    (by decide) (by decide)

/-- C3 (as stated, refuted): on three header lines the header map is not the
one the claim describes. For ":x" (empty name) nothing is stored; for "K: "
(value region of one space) the value is "\r\n", the CRLF that ends the line,
not the empty text; for " K:v" (name after a space) the key is "k", not " k". -/
theorem read_request_header_line_quirks :
    read_request (bytes "GET / HTTP/1.1\r\n:x\r\n\r\n" ++ [0])
        = Result.ok (some { type := RequestType.GET, path := bytes "/", ver := bytes "HTTP/1.1",
                            headers := [], body := [] })
      ∧ read_request (bytes "GET / HTTP/1.1\r\nK: \r\n\r\n" ++ [0])
        = Result.ok (some { type := RequestType.GET, path := bytes "/", ver := bytes "HTTP/1.1",
                            headers := [(bytes "k", bytes "\r\n")], body := [] })
      ∧ read_request (bytes "GET / HTTP/1.1\r\n K:v\r\n\r\n" ++ [0])
        = Result.ok (some { type := RequestType.GET, path := bytes "/", ver := bytes "HTTP/1.1",
                            headers := [(bytes "k", bytes "v")], body := [] }) := by
  refine ⟨?_, ?_, ?_⟩ <;> decide

/-- C3 (amended): after a valid request line, a header line `k : w` closed by
CRLF and followed by the empty line, where `k` holds no ':', `k` and `w` hold no
CR and no NUL, `k` less one leading space is not empty and `w` is not a single
space: the header map has exactly one entry, from the lowercased `k` less one
leading space (if there is one) to `w` less one leading space (if there is
one); nothing else is trimmed, and an empty `w` gives an empty value. -/
theorem read_request_header_line (t : RequestType)
    (ht : t = RequestType.GET ∨ t = RequestType.POST) (p v k w junk : Bytes)
    (hp : is_token p) (hv : is_token v)
    (hk : ∀ c ∈ k, c ≠ 58 ∧ c ≠ 13 ∧ c ≠ 0) (hk1 : strip_space k ≠ [])
    (hw : ∀ c ∈ w, c ≠ 13 ∧ c ≠ 0) (hw1 : w ≠ bytes " ") :
    read_request (method_name t ++ bytes " " ++ p ++ bytes " " ++ v ++ bytes "\r\n"
        ++ (k ++ bytes ":" ++ w) ++ bytes "\r\n" ++ bytes "\r\n" ++ 0 :: junk)
      = Result.ok (some {
          type := t, path := p, ver := v,
          headers := [((strip_space k).map tolower, strip_space w)], body := [] }) := by
  have h := read_request_one_header t ht p v k w junk hp hv hk hk1 hw
    (by rw [← bytes_space]; exact hw1)
  simpa only [bytes_space, bytes_crlf, bytes_colon, List.append_assoc, List.cons_append,
    List.nil_append] using h

/-- C3, witness: "User-Agent:  xy z " (two spaces after the colon, one at the
end) is stored under "user-agent" with the value " xy z ". -/
theorem read_request_header_line_witness :
    read_request (bytes "GET / HTTP/1.1\r\nUser-Agent:  xy z \r\n\r\n" ++ [0])
      = Result.ok (some { type := RequestType.GET, path := bytes "/", ver := bytes "HTTP/1.1",
                          headers := [(bytes "user-agent", bytes " xy z ")], body := [] }) :=
  read_request_header_line RequestType.GET (Or.inl rfl) (bytes "/") (bytes "HTTP/1.1")
    (bytes "User-Agent") (bytes "  xy z ") [] (by decide) (by decide) (by decide) (by decide)
    (by decide) (by decide)

/-- C4 (code defect): with no header line the empty line that ends the header
section is not recognised. On "POST /files/x HTTP/1.1\r\n\r\nhi" the body "hi"
is scanned as a header line and the scan leaves the buffer; when the bytes after
the empty line look like a header section ("k:v\r\n\r\nhi") they are parsed as
one and only the rest is the body. -/
theorem read_request_body_without_headers :
    read_request (bytes "POST /files/x HTTP/1.1\r\n\r\nhi" ++ [0]) = Result.fault
      ∧ read_request (bytes "POST /files/x HTTP/1.1\r\n\r\nk:v\r\n\r\nhi" ++ [0])
        = Result.ok (some { type := RequestType.POST, path := bytes "/files/x",
                            ver := bytes "HTTP/1.1", headers := [(bytes "k", bytes "v")],
                            body := bytes "hi" }) := by
  constructor <;> decide

/-- C5: the user-agent header is matched whatever the case of its letters. For
every spelling `n` of "user-agent" up to letter case and every non-empty `v`
without CR and NUL, the handler of `main` (`read_request`, then
`generate_response`) answers the request "GET /user-agent HTTP/1.1", header
line `n`, colon, space, `v`, with exactly the 200 response of content type
text/plain whose Content-Length is the decimal length of `v` and whose body is
`v`. -/
theorem user_agent_end_to_end (fs : FileStore) (directory : Option Bytes) (n v junk : Bytes)
    (hn : n.map tolower = bytes "user-agent") (hv : v ≠ [])
    (hv1 : ∀ c ∈ v, c ≠ 13 ∧ c ≠ 0) :
    handle fs directory (bytes "GET /user-agent HTTP/1.1\r\n" ++ n ++ bytes ": " ++ v
        ++ bytes "\r\n\r\n" ++ 0 :: junk)
      = Result.ok (some (bytes "HTTP/1.1 200 OK\r\nContent-Type: text/plain\r\nContent-Length: "
          ++ to_string v.length ++ bytes "\r\n\r\n" ++ v), fs) := by
  have hmem : ∀ c ∈ n, tolower c ∈ bytes "user-agent" := by
    intro c hc
    rw [← hn]
    exact List.mem_map_of_mem tolower hc
  have hbad : ∀ d : Nat, d = 58 ∨ d = 13 ∨ d = 0 ∨ d = 32 → tolower d ∉ bytes "user-agent" := by
    intro d hd
    rcases hd with rfl | rfl | rfl | rfl <;> decide
  have hk : ∀ c ∈ n, c ≠ 58 ∧ c ≠ 13 ∧ c ≠ 0 := by
    intro c hc
    refine ⟨?_, ?_, ?_⟩ <;> intro h <;> exact hbad c (by simp [h]) (hmem c hc)
  have hstrip : strip_space n = n := by
    unfold strip_space
    split
    · rename_i rest
      exact absurd (hmem 32 (List.mem_cons_self _ _)) (hbad 32 (by simp))
    · rfl
  have hk1 : strip_space n ≠ [] := by
    rw [hstrip]
    intro h
    rw [h] at hn
    exact absurd hn (by decide)
  have hw : ∀ c ∈ 32 :: v, c ≠ 13 ∧ c ≠ 0 := by
    intro c hc
    rcases List.mem_cons.mp hc with rfl | h
    · decide
    · exact hv1 c h
  have hw1 : 32 :: v ≠ [32] := by
    intro h
    injection h with _ h2
    exact hv h2
  have hparse := read_request_one_header RequestType.GET (Or.inl rfl) (bytes "/user-agent")
    (bytes "HTTP/1.1") n (32 :: v) junk (by decide) (by decide) hk hk1 hw hw1
  have hbuf : bytes "GET /user-agent HTTP/1.1\r\n" ++ n ++ bytes ": " ++ v
        ++ bytes "\r\n\r\n" ++ 0 :: junk
      = method_name RequestType.GET ++ 32 :: (bytes "/user-agent" ++ 32 :: (bytes "HTTP/1.1"
          ++ 13 :: 10 :: (n ++ 58 :: ((32 :: v) ++ 13 :: 10 :: 13 :: 10 :: 0 :: junk)))) := by
    have e1 : bytes "GET /user-agent HTTP/1.1\r\n"
        = method_name RequestType.GET ++ 32 :: (bytes "/user-agent" ++ 32 :: (bytes "HTTP/1.1"
          ++ [13, 10])) := by decide
    have e2 : bytes ": " = [58, 32] := by decide
    rw [e1, e2, bytes_crlf_crlf]
    simp only [List.append_assoc, List.cons_append, List.nil_append]
  rw [hstrip, hn] at hparse
  unfold handle
  rw [hbuf, hparse]
  dsimp only
  rw [generate_response_user_agent fs directory _ _ _ (strip_space (32 :: v))
    (by simp [Headers.find, List.lookup])]
  rfl

/-- C5, witness: the header "User-Agent: xyz" gives the body "xyz". -/
theorem user_agent_end_to_end_witness :
    handle empty_store none (bytes "GET /user-agent HTTP/1.1\r\nUser-Agent: xyz\r\n\r\n" ++ [0])
      = Result.ok (some (bytes
          "HTTP/1.1 200 OK\r\nContent-Type: text/plain\r\nContent-Length: 3\r\n\r\nxyz"),
          empty_store) :=
  user_agent_end_to_end empty_store none (bytes "User-Agent") (bytes "xyz") [] (by decide)
    (by decide) (by decide)

/-- C6: a GET request with path "/echo/" followed by `s`, where `s` (possibly
empty) holds no '/' and no NUL, gets exactly the 200 response with content type
text/plain, Content-Length the decimal byte length of `s`, and body `s`, for
every header map, root directory and file store. -/
theorem generate_response_echo (fs : FileStore) (directory : Option Bytes)
    (s ver : Bytes) (headers : Headers) (body : Bytes) (hs : ∀ c ∈ s, c ≠ 47 ∧ c ≠ 0) :
    generate_response fs directory
        { type := RequestType.GET, path := bytes "/echo/" ++ s, ver := ver,
          headers := headers, body := body }
      = Result.ok (bytes "HTTP/1.1 200 OK\r\nContent-Type: text/plain\r\nContent-Length: "
          ++ to_string s.length ++ bytes "\r\n\r\n" ++ s, fs) := by
  have hpath : bytes "/echo/" ++ s = bytes "/echo" ++ 47 :: s := by
    have : bytes "/echo/" = bytes "/echo" ++ [47] := by decide
    rw [this]; simp
  have hlast : find_last_of (bytes "/echo" ++ 47 :: s) 47 = some 5 :=
    find_last_of_append_cons (bytes "/echo") s 47 (fun h => (hs 47 h).1 rfl)
  have htake : (bytes "/echo" ++ 47 :: s).take 5 = bytes "/echo" :=
    List.take_left' (by decide)
  have hdrop : (bytes "/echo" ++ 47 :: s).drop (5 + 1) = s := by
    have : bytes "/echo" ++ 47 :: s = (bytes "/echo" ++ [47]) ++ s := by simp
    rw [this]
    exact List.drop_left' (by decide)
  have harg : s.takeWhile (fun c => decide (c ≠ 0)) = s :=
    List.takeWhile_eq_self_iff.mpr (fun c hc => by simpa using (hs c hc).2)
  have hne : ¬ (bytes "/echo" ++ 47 :: s = [] ∨ (bytes "/echo" ++ 47 :: s)[0]? ≠ some 47) := by
    have : bytes "/echo" = 47 :: [101, 99, 104, 111] := by decide
    rw [this]; simp
  have hlen : (bytes "/echo" ++ 47 :: s).length ≠ 1 := by
    have : (bytes "/echo").length = 5 := by decide
    rw [List.length_append, this, List.length_cons]; omega
  have hresp : OK ++ CONTENT_TYPE (bytes "text/plain") ++ CONTENT_LENGTH (to_string s.length)
        ++ END_HEADER ++ s
      = bytes "HTTP/1.1 200 OK\r\nContent-Type: text/plain\r\nContent-Length: "
          ++ to_string s.length ++ bytes "\r\n\r\n" ++ s := by
    have e1 : OK ++ CONTENT_TYPE (bytes "text/plain") ++ bytes "Content-Length: "
        = bytes "HTTP/1.1 200 OK\r\nContent-Type: text/plain\r\nContent-Length: " := by decide
    have e2 : CR ++ END_HEADER = bytes "\r\n\r\n" := by decide
    rw [← e1, ← e2]
    simp [CONTENT_LENGTH, List.append_assoc]
  unfold generate_response
  simp only [hpath, hne, hlen, if_false, hlast, htake, hdrop, harg, if_true, hresp]

/-- C6, witness: GET /echo/abc gives the body "abc" with Content-Length: 3. -/
theorem generate_response_echo_witness :
    generate_response empty_store none
        { type := RequestType.GET, path := bytes "/echo/abc", ver := bytes "HTTP/1.1",
          headers := [], body := [] }
      = Result.ok (bytes "HTTP/1.1 200 OK\r\nContent-Type: text/plain\r\nContent-Length: 3\r\n\r\nabc",
          empty_store) :=
  generate_response_echo empty_store none (bytes "abc") (bytes "HTTP/1.1") [] [] (by decide)

/-- C7: for every Request, root directory and file store, `generate_response`
returns a response, and the response has the wire format: one of the three
status lines; then no header line, or a Content-Type line followed by a
Content-Length line whose value is the decimal length of the body; then the
empty line; then the body, which is empty when there is no header line. -/
theorem generate_response_wire_format (fs : FileStore) (directory : Option Bytes)
    (request : Request) :
    ∃ response fs1, generate_response fs directory request = Result.ok (response, fs1)
      ∧ wire_format response := by
  unfold generate_response
  split
  · exact ⟨_, _, rfl, wire_format_404⟩
  · rename_i hstart
    split
    · exact ⟨_, _, rfl, wire_format_ok⟩
    · split
      · rename_i hnone
        exfalso
        have h0 : request.path[0]? = some 47 := by
          by_contra h
          exact hstart (Or.inr h)
        obtain ⟨pos, hpos⟩ := find_last_of_of_mem _ 47 (mem_of_getElem?_zero h0)
        rw [hpos] at hnone
        cases hnone
      · dsimp only
        split
        · split
          · exact ⟨_, _, rfl, wire_format_body _ _ (by simp)⟩
          · split
            · split
              · exact ⟨_, _, rfl, wire_format_404⟩
              · exact ⟨_, _, rfl, wire_format_body _ _ (by simp)⟩
            · split
              · split
                · exact ⟨_, _, rfl, wire_format_body _ _ (by simp)⟩
                · exact ⟨_, _, rfl, wire_format_404⟩
              · exact ⟨_, _, rfl, wire_format_404⟩
        · rename_i htype
          split
          · rename_i pos _ _ _
            obtain ⟨b, fs1, hc⟩ := create_file_total fs directory
                (List.takeWhile (fun c => decide (c ≠ 0)) (List.drop (pos + 1) request.path))
                request
            rw [hc]
            cases b with
            | true => exact ⟨_, _, rfl, wire_format_created⟩
            | false => exact ⟨_, _, rfl, wire_format_404⟩
          · exact ⟨_, _, rfl, wire_format_404⟩
        · exact ⟨_, _, rfl, wire_format_404⟩

/-- C8: `generate_response` returns exactly "HTTP/1.1 404 Not Found\r\n\r\n",
and leaves the file store alone, whatever the headers and the root directory,
when (a) the path is empty or does not start with '/'; (b) the method is GET,
the path is neither "/" nor "/user-agent" and the prefix `p` in front of its
last '/' is neither "/echo" nor "/files"; in particular when the method is GET
and the path is "/echo/" followed by a text `t` that holds a '/'; (c) the method
is GET, the path is "/user-agent" and the header map has no "user-agent" key;
(d) the method is POST, the path is not "/" and the prefix `p` is not "/files";
(e) the method is UNKNOWN and the path is not "/". -/
theorem generate_response_not_found (fs : FileStore) (directory : Option Bytes)
    (request : Request) (p a t : Bytes)
    (h : (request.path = [] ∨ request.path.head? ≠ some 47)
      ∨ (request.type = RequestType.GET ∧ request.path ≠ bytes "/"
          ∧ request.path ≠ bytes "/user-agent"
          ∧ request.path = p ++ 47 :: a ∧ 47 ∉ a ∧ p ≠ bytes "/echo" ∧ p ≠ bytes "/files")
      ∨ (request.type = RequestType.GET ∧ request.path = bytes "/echo/" ++ t ∧ 47 ∈ t)
      ∨ (request.type = RequestType.GET ∧ request.path = bytes "/user-agent"
          ∧ request.headers.find (bytes "user-agent") = none)
      ∨ (request.type = RequestType.POST ∧ request.path ≠ bytes "/"
          ∧ request.path = p ++ 47 :: a ∧ 47 ∉ a ∧ p ≠ bytes "/files")
      ∨ (request.type = RequestType.UNKNOWN ∧ request.path ≠ bytes "/")) :
    generate_response fs directory request
      = Result.ok (bytes "HTTP/1.1 404 Not Found\r\n\r\n", fs) := by
  rw [← ERR_404_eq]
  by_cases hs : request.path = [] ∨ request.path[0]? ≠ some 47
  · unfold generate_response
    rw [if_pos hs]
  · have h0 : request.path[0]? = some 47 := by
      by_contra hc
      exact hs (Or.inr hc)
    rcases h with ha | hb | hf | hc | hd | he
    · exfalso
      apply hs
      rcases ha with ha | ha
      · exact Or.inl ha
      · right
        rw [← List.head?_eq_getElem?]
        exact ha
    · obtain ⟨htype, hroot, hua, hpath, hna, hecho, hfiles⟩ := hb
      rw [generate_response_split fs directory request p a hpath hna h0 hroot, htype]
      simp only [if_neg hecho, if_neg hua, if_neg hfiles]
    · obtain ⟨htype, hpath, hmem⟩ := hf
      obtain ⟨t1, a1, ht, hna⟩ := last_occurrence 47 t hmem
      have e : bytes "/echo/" = [47, 101, 99, 104, 111, 47] := by decide
      have e1 : bytes "/echo" = [47, 101, 99, 104, 111] := by decide
      have e2 : bytes "/files" = [47, 102, 105, 108, 101, 115] := by decide
      have e3 : bytes "/user-agent" = [47, 117, 115, 101, 114, 45, 97, 103, 101, 110, 116] := by
        decide
      have e4 : bytes "/" = [47] := by decide
      have hpath1 : request.path = (bytes "/echo/" ++ t1) ++ 47 :: a1 := by
        rw [hpath, ht, List.append_assoc]
      have hroot : request.path ≠ bytes "/" := by
        rw [hpath, e, e4]; simp
      have hua : request.path ≠ bytes "/user-agent" := by
        rw [hpath, e, e3]; simp
      have hecho : bytes "/echo/" ++ t1 ≠ bytes "/echo" := by
        rw [e, e1]; simp
      have hfiles : bytes "/echo/" ++ t1 ≠ bytes "/files" := by
        rw [e, e2]; simp
      rw [generate_response_split fs directory request _ a1 hpath1 hna h0 hroot, htype]
      simp only [if_neg hecho, if_neg hua, if_neg hfiles]
    · obtain ⟨htype, hpath, hnone⟩ := hc
      have hpath1 : request.path = [] ++ 47 :: bytes "user-agent" := by
        rw [hpath]; decide
      have hroot : request.path ≠ bytes "/" := by
        rw [hpath]; decide
      have hecho : ([] : Bytes) ≠ bytes "/echo" := by decide
      rw [generate_response_split fs directory request [] (bytes "user-agent") hpath1
        (by decide) h0 hroot, htype]
      simp only [if_neg hecho, if_pos hpath, hnone]
    · obtain ⟨htype, hroot, hpath, hna, hfiles⟩ := hd
      rw [generate_response_split fs directory request p a hpath hna h0 hroot, htype]
      simp only [if_neg hfiles]
    · obtain ⟨htype, hroot⟩ := he
      obtain ⟨p1, a1, hpath, hna⟩ := last_occurrence 47 request.path (mem_of_getElem?_zero h0)
      rw [generate_response_split fs directory request p1 a1 hpath hna h0 hroot, htype]

/-- C8, witness: GET /echo/a/b has the prefix "/echo/a" and gets the 404 response. -/
theorem generate_response_not_found_witness :
    generate_response empty_store none
        { type := RequestType.GET, path := bytes "/echo/a/b", ver := bytes "HTTP/1.1",
          headers := [], body := [] }
      = Result.ok (bytes "HTTP/1.1 404 Not Found\r\n\r\n", empty_store) :=
  generate_response_not_found empty_store none _ [] [] (bytes "a/b")
    (Or.inr (Or.inr (Or.inl ⟨rfl, by decide, by decide⟩)))

/-- C9: a request whose path is exactly "/" gets exactly "HTTP/1.1 200 OK\r\n\r\n",
whatever its method (GET, POST or UNKNOWN), version, header map and body, the
root directory and the file store; the file store is left as it was. -/
theorem generate_response_root (fs : FileStore) (directory : Option Bytes)
    (type : RequestType) (ver : Bytes) (headers : Headers) (body : Bytes) :
    generate_response fs directory
        { type := type, path := bytes "/", ver := ver, headers := headers, body := body }
      = Result.ok (bytes "HTTP/1.1 200 OK\r\n\r\n", fs) := by
  have h1 : bytes "/" = [47] := by decide
  have h2 : OK ++ END_HEADER = bytes "HTTP/1.1 200 OK\r\n\r\n" := by decide
  simp [generate_response, h1, h2]

/-- C10 (code defect): after a valid request line, a header line that is not
closed by CRLF makes the header loop read past the NUL that ends the buffer:
the loop tests `*msg`, not `msg[o]`. -/
theorem read_request_unterminated_header_line :
    read_request (bytes "GET / HTTP/1.1\r\nfoo" ++ [0]) = Result.fault
      ∧ read_request (bytes "GET / HTTP/1.1\r\nHost: x" ++ [0]) = Result.fault := by
  constructor <;> decide

/-- C11 (code defect): bytes behind the request reach the header map. The request
"GET / HTTP/1.1\r\n\r\n" is complete (request line, no header line, empty line);
followed by the NUL alone it parses with an empty header map, followed by
"k:v\r\n\r\n" it parses with the header map {k: v}, and followed by "hi" the scan
leaves the buffer and no Request is returned. -/
theorem read_request_trailing_bytes :
    read_request (bytes "GET / HTTP/1.1\r\n\r\n" ++ [0])
        = Result.ok (some { type := RequestType.GET, path := bytes "/", ver := bytes "HTTP/1.1",
                            headers := [], body := [] })
      ∧ read_request (bytes "GET / HTTP/1.1\r\n\r\n" ++ bytes "k:v\r\n\r\n" ++ [0])
        = Result.ok (some { type := RequestType.GET, path := bytes "/", ver := bytes "HTTP/1.1",
                            headers := [(bytes "k", bytes "v")], body := [] })
      ∧ read_request (bytes "GET / HTTP/1.1\r\n\r\n" ++ bytes "hi" ++ [0]) = Result.fault := by
  refine ⟨?_, ?_, ?_⟩ <;> decide

/-- C12 (code defect): extra spaces are not skipped. With three spaces between
method and path the path is " /", not "/"; with two spaces in front of the
method no Request is returned. After a skipped space `o++` still runs, so the
next byte is not tested. -/
theorem read_request_extra_spaces :
    read_request (bytes "GET / HTTP/1.1\r\n\r\n" ++ [0])
        = Result.ok (some { type := RequestType.GET, path := bytes "/", ver := bytes "HTTP/1.1",
                            headers := [], body := [] })
      ∧ read_request (bytes "GET   / HTTP/1.1\r\n\r\n" ++ [0])
        = Result.ok (some { type := RequestType.GET, path := bytes " /", ver := bytes "HTTP/1.1",
                            headers := [], body := [] })
      ∧ read_request (bytes "  GET / HTTP/1.1\r\n\r\n" ++ [0]) = Result.ok none := by
  refine ⟨?_, ?_, ?_⟩ <;> decide

/-- C13: whenever `read_request` returns a Request, every key of its header map
is lowercased: it holds no ASCII uppercase letter 'A'..'Z'. -/
theorem read_request_keys_lowercased (msg : Bytes) (req : Request)
    (h : read_request msg = Result.ok (some req)) :
    ∀ e ∈ req.headers, lowercased e.1 := by
  obtain ⟨m, msg1, msg2, _, _, h2, _⟩ := read_request_some msg req h
  exact header_loop_lowercased msg1 req.headers msg2 h2

/-- C13, witness: the header lines "User-Agent: x" and "HOST: y" are stored under
"user-agent" and "host". -/
theorem read_request_keys_lowercased_witness :
    lowercased (bytes "host") ∧ lowercased (bytes "user-agent") :=
  have h := read_request_keys_lowercased
    (bytes "GET / HTTP/1.1\r\nUser-Agent: x\r\nHOST: y\r\n\r\n" ++ [0])
    { type := RequestType.GET, path := bytes "/", ver := bytes "HTTP/1.1",
      headers := [(bytes "host", bytes "y"), (bytes "user-agent", bytes "x")], body := [] }
    (by decide)
  ⟨h (bytes "host", bytes "y") (by simp), h (bytes "user-agent", bytes "x") (by simp)⟩

/-- C14 (code defect): of the header lines "Host: a", "X: ", "Host: b" the last
"Host" line does not win: the map holds host -> "a". After the one space of the
value region of "X: " is skipped, `o++` steps over the CR that ends the line, so
the value of "x" runs on to the end of the next line and "Host: b" is never
read as a header line. -/
theorem read_request_duplicate_swallowed :
    read_request (bytes "GET / HTTP/1.1\r\nHost: a\r\nX: \r\nHost: b\r\n\r\n" ++ [0])
        = Result.ok (some { type := RequestType.GET, path := bytes "/", ver := bytes "HTTP/1.1",
                            headers := [(bytes "x", bytes "\r\nHost: b"),
                                        (bytes "host", bytes "a")],
                            body := [] })
      ∧ Headers.find [(bytes "x", bytes "\r\nHost: b"), (bytes "host", bytes "a")]
          (bytes "host") = some (bytes "a") := by
  constructor <;> decide

/-- C15: whenever `read_request` returns a Request, its method is GET or POST,
never UNKNOWN, and its path is not empty, so the empty-path rule of
`generate_response` is not reached from a parsed request. -/
theorem read_request_method_and_path (msg : Bytes) (req : Request)
    (h : read_request msg = Result.ok (some req)) :
    (req.type = RequestType.GET ∨ req.type = RequestType.POST)
      ∧ req.type ≠ RequestType.UNKNOWN ∧ req.path ≠ [] := by
  obtain ⟨m, msg1, msg2, h1, ht, _, _⟩ := read_request_some msg req h
  have hty := request_type_some m req.type ht
  refine ⟨hty, ?_, ?_⟩
  · rcases hty with h2 | h2 <;> rw [h2] <;> decide
  · exact request_line_loop_nonempty msg _ msg1 h1 req.path (by simp)

/-- C15, witness: the request parsed from "GET / \r\n\r\n" has an empty version,
but its method is GET and its path "/" is not empty. -/
theorem read_request_method_and_path_witness :
    (RequestType.GET = RequestType.GET ∨ RequestType.GET = RequestType.POST)
      ∧ RequestType.GET ≠ RequestType.UNKNOWN ∧ bytes "/" ≠ [] :=
  read_request_method_and_path (bytes "GET / \r\n\r\n" ++ [0])
    { type := RequestType.GET, path := bytes "/", ver := [], headers := [], body := [] }
    (by decide)

/-- C16 (as stated, refuted): two requests GET "/files/" + name, name without
'/', with a root directory. For the name "a\x00b" the file store holds no file at
root + name, yet the response is the 200 response with the content of root +
"a": the name is cut at its first NUL. For a file of 2^32 bytes the response has
Content-Length: 0 and an empty body, not the entire content: `end` is a
`uint32_t`. -/
theorem generate_response_get_file_quirks :
    (empty_store.put (bytes "/tmp/a") (bytes "x")).content (bytes "/tmp/a\x00b") = none
    ∧ generate_response (empty_store.put (bytes "/tmp/a") (bytes "x")) (some (bytes "/tmp/"))
        { type := RequestType.GET, path := bytes "/files/a\x00b", ver := bytes "HTTP/1.1",
          headers := [], body := [] }
      = Result.ok (bytes
          "HTTP/1.1 200 OK\r\nContent-Type: application/octet-stream\r\nContent-Length: 1\r\n\r\nx",
          empty_store.put (bytes "/tmp/a") (bytes "x"))
    ∧ generate_response (empty_store.put (bytes "/tmp/big") big_file) (some (bytes "/tmp/"))
        { type := RequestType.GET, path := bytes "/files/big", ver := bytes "HTTP/1.1",
          headers := [], body := [] }
      = Result.ok (bytes
          "HTTP/1.1 200 OK\r\nContent-Type: application/octet-stream\r\nContent-Length: 0\r\n\r\n",
          empty_store.put (bytes "/tmp/big") big_file) := by
  refine ⟨by decide, by rfl, ?_⟩
  rw [generate_response_files _ _ _ (bytes "big") (by decide) (by decide)]
  have htw : (bytes "big").takeWhile (fun c => decide (c ≠ 0)) = bytes "big" := by decide
  have hfind : find_file (empty_store.put (bytes "/tmp/big") big_file) (some (bytes "/tmp/"))
      (bytes "big") = some [] := by
    have hp : bytes "/tmp/" ++ bytes "big" = bytes "/tmp/big" := by decide
    simp only [find_file, FileStore.put, hp, if_true, big_file_length, Nat.mod_self,
      List.take_zero]
  simp only [htw, hfind]
  rw [response_file_eq]
  have : bytes "HTTP/1.1 200 OK\r\nContent-Type: application/octet-stream\r\nContent-Length: "
      ++ to_string ([] : Bytes).length ++ bytes "\r\n\r\n" ++ []
      = bytes "HTTP/1.1 200 OK\r\nContent-Type: application/octet-stream\r\nContent-Length: 0\r\n\r\n" := by
    decide
  rw [this]

/-- C16 (amended): for a GET request with path "/files/" followed by `name`,
where `name` holds no '/' and no NUL, `generate_response` returns exactly the 404
response when no root directory is configured or no file can be read at root +
`name`, and when the file there holds fewer than 2^32 bytes it returns the 200
response with content type application/octet-stream, Content-Length the decimal
length of the file and the entire file as body; the file store is left as it
was in every case. -/
theorem generate_response_get_file (fs : FileStore) (directory : Option Bytes)
    (name ver : Bytes) (headers : Headers) (body : Bytes)
    (hname : ∀ c ∈ name, c ≠ 47 ∧ c ≠ 0) :
    (directory = none →
      generate_response fs directory
          { type := RequestType.GET, path := bytes "/files/" ++ name, ver := ver,
            headers := headers, body := body }
        = Result.ok (bytes "HTTP/1.1 404 Not Found\r\n\r\n", fs))
    ∧ (∀ root, directory = some root → fs.content (root ++ name) = none →
      generate_response fs directory
          { type := RequestType.GET, path := bytes "/files/" ++ name, ver := ver,
            headers := headers, body := body }
        = Result.ok (bytes "HTTP/1.1 404 Not Found\r\n\r\n", fs))
    ∧ (∀ root data, directory = some root → fs.content (root ++ name) = some data →
      data.length < 2 ^ 32 →
      generate_response fs directory
          { type := RequestType.GET, path := bytes "/files/" ++ name, ver := ver,
            headers := headers, body := body }
        = Result.ok (bytes
            "HTTP/1.1 200 OK\r\nContent-Type: application/octet-stream\r\nContent-Length: "
            ++ to_string data.length ++ bytes "\r\n\r\n" ++ data, fs)) := by
  have hgen := generate_response_files fs directory
    { type := RequestType.GET, path := bytes "/files/" ++ name, ver := ver,
      headers := headers, body := body } name rfl (fun h => (hname 47 h).1 rfl)
  rw [takeWhile_no_nul name (fun c hc => (hname c hc).2)] at hgen
  dsimp only at hgen
  refine ⟨?_, ?_, ?_⟩
  · intro hdir
    rw [hgen, hdir, ERR_404_eq]
    rfl
  · intro root hdir hnone
    rw [hgen, hdir, ERR_404_eq]
    simp only [find_file, hnone]
  · intro root data hdir hsome hlen
    rw [hgen, hdir]
    simp only [find_file, hsome, Nat.mod_eq_of_lt hlen, List.take_length]
    rw [response_file_eq]

/-- C16, witness: with the file "/tmp/foo" holding "hi", GET /files/foo gives the
200 response with Content-Length: 2 and body "hi". -/
theorem generate_response_get_file_witness :
    generate_response (empty_store.put (bytes "/tmp/foo") (bytes "hi")) (some (bytes "/tmp/"))
        { type := RequestType.GET, path := bytes "/files/foo", ver := bytes "HTTP/1.1",
          headers := [], body := [] }
      = Result.ok (bytes
          "HTTP/1.1 200 OK\r\nContent-Type: application/octet-stream\r\nContent-Length: 2\r\n\r\nhi",
          empty_store.put (bytes "/tmp/foo") (bytes "hi")) :=
  (generate_response_get_file (empty_store.put (bytes "/tmp/foo") (bytes "hi"))
    (some (bytes "/tmp/")) (bytes "foo") (bytes "HTTP/1.1") [] [] (by decide)).2.2
    (bytes "/tmp/") (bytes "hi") rfl (by decide) (by decide)

/-- C17 (code defect): POST /files/foo with an openable root and the header value
"-1". `std::stol` returns -1 without an exception, so `create_file` takes none
of its `return false`: it returns true, the file is left empty, and the
response is the 201 response, not the 404 response. -/
theorem generate_response_post_negative_length :
    stol (bytes "-1") = some (-1)
    ∧ create_file open_store (some (bytes "/tmp/")) (bytes "foo")
        { type := RequestType.POST, path := bytes "/files/foo", ver := bytes "HTTP/1.1",
          headers := [(bytes "content-length", bytes "-1")], body := bytes "hi" }
      = Result.ok (true, (open_store.put (bytes "/tmp/foo") []).put (bytes "/tmp/foo") [])
    ∧ generate_response open_store (some (bytes "/tmp/"))
        { type := RequestType.POST, path := bytes "/files/foo", ver := bytes "HTTP/1.1",
          headers := [(bytes "content-length", bytes "-1")], body := bytes "hi" }
      = Result.ok (bytes "HTTP/1.1 201 Created\r\n\r\n",
          (open_store.put (bytes "/tmp/foo") []).put (bytes "/tmp/foo") []) := by
  refine ⟨by decide, by rfl, by rfl⟩

/-- C18: write/read round trip. For a root, a `name` without '/' whose path root
+ `name` can be opened (the path is handed to the file system as a C string, so
for a `name` with a NUL it ends there), and a body of fewer than 2^32 bytes, as
is every body that the buffer of `MSG_SIZE` bytes of `main` delivers: the POST
request "/files/" + `name` with header content-length the decimal size of the
body gets exactly the 201 response, and each of any number `k` of GET requests
on the same path served after it gets exactly the 200 response of content type
application/octet-stream whose Content-Length is the decimal size of the body
and whose body is the body that was posted. -/
theorem upload_then_download (fs : FileStore) (root name ver : Bytes) (headers : Headers)
    (body ver2 : Bytes) (headers2 : Headers) (body2 : Bytes) (k : Nat)
    (hname : 47 ∉ name)
    (hopen : fs.canOpen (root ++ name.takeWhile (fun c => decide (c ≠ 0))) = true)
    (hlen : body.length < 2 ^ 32)
    (hcl : headers.find (bytes "content-length") = some (to_string body.length)) :
    serve_all (some root) fs
        ({ type := RequestType.POST, path := bytes "/files/" ++ name, ver := ver,
           headers := headers, body := body }
          :: List.replicate k
            { type := RequestType.GET, path := bytes "/files/" ++ name, ver := ver2,
              headers := headers2, body := body2 })
      = Result.ok (bytes "HTTP/1.1 201 Created\r\n\r\n"
          :: List.replicate k (bytes
            "HTTP/1.1 200 OK\r\nContent-Type: application/octet-stream\r\nContent-Length: "
            ++ to_string body.length ++ bytes "\r\n\r\n" ++ body),
          (fs.put (root ++ name.takeWhile (fun c => decide (c ≠ 0))) []).put
            (root ++ name.takeWhile (fun c => decide (c ≠ 0))) body) := by
  have hpost := generate_response_file_written fs root name ver headers body hname hopen hcl
    (by omega)
  have hget := generate_response_file_read
    ((fs.put (root ++ name.takeWhile (fun c => decide (c ≠ 0))) []).put
      (root ++ name.takeWhile (fun c => decide (c ≠ 0))) body)
    root name ver2 headers2 body2 body hname (content_put _ _ _)
  rw [Nat.mod_eq_of_lt hlen, List.take_length] at hget
  rw [serve_all, hpost]
  dsimp only
  rw [serve_all_gets _ _ _ _ hget k]

/-- C18, witness: POST /files/foo with body "hi" and Content-Length: 2, then two
GET /files/foo: 201, then twice the 200 response with Content-Length: 2 and
body "hi". -/
theorem upload_then_download_witness :
    serve_all (some (bytes "/tmp/")) open_store
        [{ type := RequestType.POST, path := bytes "/files/foo", ver := bytes "HTTP/1.1",
           headers := [(bytes "content-length", bytes "2")], body := bytes "hi" },
         { type := RequestType.GET, path := bytes "/files/foo", ver := bytes "HTTP/1.1",
           headers := [], body := [] },
         { type := RequestType.GET, path := bytes "/files/foo", ver := bytes "HTTP/1.1",
           headers := [], body := [] }]
      = Result.ok ([bytes "HTTP/1.1 201 Created\r\n\r\n",
          bytes "HTTP/1.1 200 OK\r\nContent-Type: application/octet-stream\r\nContent-Length: 2\r\n\r\nhi",
          bytes "HTTP/1.1 200 OK\r\nContent-Type: application/octet-stream\r\nContent-Length: 2\r\n\r\nhi"],
          (open_store.put (bytes "/tmp/foo") []).put (bytes "/tmp/foo") (bytes "hi")) :=
  upload_then_download open_store (bytes "/tmp/") (bytes "foo") (bytes "HTTP/1.1")
    [(bytes "content-length", bytes "2")] (bytes "hi") (bytes "HTTP/1.1") [] [] 2
    (by decide) (by rfl) (by decide) (by decide)

/-- C19 (as stated, refuted): for the path "/files/a\x00b" the part after the last
'/' is "a\x00b", but `create_file` is called with "a": the file written is
"/tmp/a", and nothing is at "/tmp/a\x00b". -/
theorem generate_response_file_argument_nul :
    generate_response open_store (some (bytes "/tmp/"))
        { type := RequestType.POST, path := bytes "/files/a\x00b", ver := bytes "HTTP/1.1",
          headers := [(bytes "content-length", bytes "2")], body := bytes "hi" }
      = Result.ok (bytes "HTTP/1.1 201 Created\r\n\r\n",
          (open_store.put (bytes "/tmp/a") []).put (bytes "/tmp/a") (bytes "hi"))
    ∧ ((open_store.put (bytes "/tmp/a") []).put (bytes "/tmp/a") (bytes "hi")).content
        (bytes "/tmp/a\x00b") = none := by
  refine ⟨by rfl, by decide⟩

/-- C19 (amended): for every Request, either the response of `generate_response`
is the same for every file store and root directory (no file is touched), or
the path is `p`, '/', `a` with no '/' in `a`, and the response comes from one
call of `find_file` or of `create_file` whose file name is `a` cut at its first
NUL (all of `a` when it holds none): that name holds no '/'. `find_file` reads
the file store at root + name only, and `create_file` changes it at root + name
only. The request "/files/../../etc/passwd" gets the 404 response and the file
store is left alone, whatever the method. -/
theorem generate_response_file_argument (request : Request) :
    ((∃ response, ∀ fs directory,
        generate_response fs directory request = Result.ok (response, fs))
      ∨ ∃ p a, request.path = p ++ 47 :: a ∧ 47 ∉ a
          ∧ 47 ∉ a.takeWhile (fun c => decide (c ≠ 0))
          ∧ ((∀ fs directory, generate_response fs directory request =
                match find_file fs directory (a.takeWhile (fun c => decide (c ≠ 0))) with
                | some file =>
                  Result.ok (OK ++ CONTENT_TYPE (bytes "application/octet-stream")
                    ++ CONTENT_LENGTH (to_string file.length) ++ END_HEADER ++ file, fs)
                | none => Result.ok (ERR_404, fs))
            ∨ (∀ fs directory, generate_response fs directory request =
                match create_file fs directory (a.takeWhile (fun c => decide (c ≠ 0)))
                    request with
                | Result.ok (true, fs1) => Result.ok (CREATED ++ END_HEADER, fs1)
                | Result.ok (false, fs1) => Result.ok (ERR_404, fs1)
                | Result.fault => Result.fault
                | Result.timeout => Result.timeout)))
    ∧ (∀ (fs1 fs2 : FileStore) (root file : Bytes),
        fs1.content (root ++ file) = fs2.content (root ++ file) →
        find_file fs1 (some root) file = find_file fs2 (some root) file)
    ∧ (∀ (fs fs1 : FileStore) (root file : Bytes) (req : Request) (b : Bool),
        create_file fs (some root) file req = Result.ok (b, fs1) →
        fs1.canOpen = fs.canOpen ∧ ∀ q, q ≠ root ++ file → fs1.content q = fs.content q)
    ∧ (∀ (fs : FileStore) (directory : Option Bytes) (type : RequestType) (ver : Bytes)
        (headers : Headers) (body : Bytes),
        generate_response fs directory
            { type := type, path := bytes "/files/../../etc/passwd", ver := ver,
              headers := headers, body := body }
          = Result.ok (bytes "HTTP/1.1 404 Not Found\r\n\r\n", fs)) := by
  refine ⟨?_, find_file_reads_one_path, create_file_writes_one_path, ?_⟩
  · by_cases hs : request.path = [] ∨ request.path[0]? ≠ some 47
    · left
      refine ⟨ERR_404, fun fs directory => ?_⟩
      unfold generate_response
      rw [if_pos hs]
    · have h0 : request.path[0]? = some 47 := by
        by_contra hc
        exact hs (Or.inr hc)
      by_cases hroot : request.path = bytes "/"
      · left
        refine ⟨OK ++ END_HEADER, fun fs directory => ?_⟩
        have hlen : request.path.length = 1 := by rw [hroot]; decide
        unfold generate_response
        rw [if_neg hs, if_pos hlen]
      · obtain ⟨p, a, hpath, hna⟩ :=
          last_occurrence 47 request.path (mem_of_getElem?_zero h0)
        have hsplit := fun fs directory =>
          generate_response_split fs directory request p a hpath hna h0 hroot
        cases htype : request.type with
        | UNKNOWN =>
          left
          refine ⟨ERR_404, fun fs directory => ?_⟩
          rw [hsplit, htype]
        | GET =>
          by_cases hecho : p = bytes "/echo"
          · left
            refine ⟨OK ++ CONTENT_TYPE (bytes "text/plain")
              ++ CONTENT_LENGTH (to_string (a.takeWhile (fun c => decide (c ≠ 0))).length)
              ++ END_HEADER ++ a.takeWhile (fun c => decide (c ≠ 0)), fun fs directory => ?_⟩
            rw [hsplit, htype]
            simp only [if_pos hecho]
          · by_cases hua : request.path = bytes "/user-agent"
            · left
              cases hfind : request.headers.find (bytes "user-agent") with
              | none =>
                refine ⟨ERR_404, fun fs directory => ?_⟩
                rw [hsplit, htype]
                simp only [if_neg hecho, if_pos hua, hfind]
              | some value =>
                refine ⟨OK ++ CONTENT_TYPE (bytes "text/plain")
                  ++ CONTENT_LENGTH (to_string value.length) ++ END_HEADER ++ value,
                  fun fs directory => ?_⟩
                rw [hsplit, htype]
                simp only [if_neg hecho, if_pos hua, hfind]
            · by_cases hfiles : p = bytes "/files"
              · right
                refine ⟨p, a, hpath, hna, not_mem_takeWhile a hna, Or.inl ?_⟩
                intro fs directory
                rw [hsplit, htype]
                simp only [if_neg hecho, if_neg hua, if_pos hfiles]
              · left
                refine ⟨ERR_404, fun fs directory => ?_⟩
                rw [hsplit, htype]
                simp only [if_neg hecho, if_neg hua, if_neg hfiles]
        | POST =>
          by_cases hfiles : p = bytes "/files"
          · right
            refine ⟨p, a, hpath, hna, not_mem_takeWhile a hna, Or.inr ?_⟩
            intro fs directory
            rw [hsplit, htype]
            simp only [if_pos hfiles]
          · left
            refine ⟨ERR_404, fun fs directory => ?_⟩
            rw [hsplit, htype]
            simp only [if_neg hfiles]
  · intro fs directory type ver headers body
    have hpath : bytes "/files/../../etc/passwd" = bytes "/files/../../etc" ++ 47 :: bytes "passwd" := by
      decide
    have h0 : (bytes "/files/../../etc/passwd")[0]? = some 47 := by decide
    have hroot : bytes "/files/../../etc/passwd" ≠ bytes "/" := by decide
    rw [generate_response_split fs directory _ (bytes "/files/../../etc") (bytes "passwd")
      hpath (by decide) h0 hroot, ← ERR_404_eq]
    have hecho : bytes "/files/../../etc" ≠ bytes "/echo" := by decide
    have hfiles : bytes "/files/../../etc" ≠ bytes "/files" := by decide
    have hua : bytes "/files/../../etc/passwd" ≠ bytes "/user-agent" := by decide
    cases type with
    | UNKNOWN => rfl
    | GET => simp only [if_neg hecho, if_neg hua, if_neg hfiles]
    | POST => simp only [if_neg hfiles]

/-- C19, witness: GET /files/../../etc/passwd on a store that holds
"/etc/passwd" gets the 404 response. -/
theorem generate_response_file_argument_witness :
    generate_response (empty_store.put (bytes "/etc/passwd") (bytes "root")) (some (bytes "/tmp/"))
        { type := RequestType.GET, path := bytes "/files/../../etc/passwd",
          ver := bytes "HTTP/1.1", headers := [], body := [] }
      = Result.ok (bytes "HTTP/1.1 404 Not Found\r\n\r\n",
          empty_store.put (bytes "/etc/passwd") (bytes "root")) :=
  (generate_response_file_argument
    { type := RequestType.GET, path := bytes "/files/../../etc/passwd",
      ver := bytes "HTTP/1.1", headers := [], body := [] }).2.2.2
    (empty_store.put (bytes "/etc/passwd") (bytes "root")) (some (bytes "/tmp/"))
    RequestType.GET (bytes "HTTP/1.1") [] []

/-- C20: a failed upload is not atomic. When root + `name` can be opened for
writing and the request has no "content-length" header, or one that `std::stol`
rejects, `create_file` returns false and leaves the file root + `name` existing
and empty, whatever it held before; `generate_response`, which calls
`create_file` with the part `name` of the path "/files/" + `a` (`a` without '/',
cut at its first NUL), then returns the 404 response with that file store. -/
theorem create_file_failed_upload (fs : FileStore) (root name : Bytes) (req : Request)
    (hopen : fs.canOpen (root ++ name) = true)
    (hbad : req.headers.find (bytes "content-length") = none
      ∨ ∃ value, req.headers.find (bytes "content-length") = some value ∧ stol value = none) :
    create_file fs (some root) name req = Result.ok (false, fs.put (root ++ name) [])
    ∧ (fs.put (root ++ name) []).content (root ++ name) = some []
    ∧ (∀ a, req.type = RequestType.POST → req.path = bytes "/files/" ++ a → 47 ∉ a →
        a.takeWhile (fun c => decide (c ≠ 0)) = name →
        generate_response fs (some root) req
          = Result.ok (bytes "HTTP/1.1 404 Not Found\r\n\r\n", fs.put (root ++ name) [])) := by
  have hcreate : create_file fs (some root) name req
      = Result.ok (false, fs.put (root ++ name) []) := by
    unfold create_file
    rcases hbad with hnone | ⟨value, hsome, hstol⟩
    · simp only [hopen, hnone]
      simp
    · simp only [hopen, hsome, hstol]
      simp
  refine ⟨hcreate, by simp [FileStore.put], ?_⟩
  intro a htype hpath ha hname
  rw [generate_response_files fs (some root) req a hpath ha, htype]
  simp only [hname, hcreate, ERR_404_eq]

/-- C20, witness: the file "/tmp/foo" holds "old"; a POST /files/foo without a
content-length header leaves it empty, and the response is 404. -/
theorem create_file_failed_upload_witness :
    ((open_store.put (bytes "/tmp/foo") (bytes "old")).put (bytes "/tmp/foo") []).content
        (bytes "/tmp/foo") = some []
    ∧ generate_response (open_store.put (bytes "/tmp/foo") (bytes "old")) (some (bytes "/tmp/"))
        { type := RequestType.POST, path := bytes "/files/foo", ver := bytes "HTTP/1.1",
          headers := [], body := bytes "new" }
      = Result.ok (bytes "HTTP/1.1 404 Not Found\r\n\r\n",
          (open_store.put (bytes "/tmp/foo") (bytes "old")).put (bytes "/tmp/foo") []) :=
  have h := create_file_failed_upload (open_store.put (bytes "/tmp/foo") (bytes "old"))
    (bytes "/tmp/") (bytes "foo")
    { type := RequestType.POST, path := bytes "/files/foo", ver := bytes "HTTP/1.1",
      headers := [], body := bytes "new" }
    (by rfl) (Or.inl (by rfl))
  ⟨h.2.1, h.2.2 (bytes "foo") rfl (by decide) (by decide) (by decide)⟩

end HttpServer
